import Mathlib

/-!
# as6: entity/component core

A shallow embedding of `src/as6.cpp`: the `Entity` container, its typed lookups
`GetComponent<T>` (both overloads), `AddComponent<T>`, the move constructor,
`Entity::tick`, the `tick` bodies of the component kinds, and `InputComponent::setup`
with the callbacks it binds.

Conventions of the embedding.

* Scalars (`float`, `raylib::Degree`) are elements of a linearly ordered field `F`
  (exact arithmetic; instantiate `F := ℚ` to evaluate).  Matrices (`raylib::Matrix`,
  the type of `Model::transform`) are an arbitrary type `M`.
* Library functions that are not part of the repository (`cos`, `sin`,
  `raylib::Transform::RotateXYZ`) are the fields of a `Backend` record.
* A pointer to an `Entity` is the address of that entity, a natural number.
* A reference to a component of an entity is its index in `components`.
* Undefined behaviour is an explicit `Fault` in `Except`.
* `Entity::tick` is run on a `Frame`, which records the virtual calls and the `Draw`
  calls next to the entity.
-/

namespace As6

/-! ## Data model -/

/-- The classes of the component hierarchy: the base `Component` and the four structs
deriving from it. -/
inductive Kind where
  | Component
  | TransformComponent
  | RenderingComponent
  | PhysicsComponent
  | InputComponent
  deriving DecidableEq, Repr

/-- The class hierarchy: `d.derivedFrom K` when class `d` is `K` or publicly derives
from `K`.  Every class derives from the base `Component`, and nothing else derives from
anything but itself. -/
def Kind.derivedFrom (d K : Kind) : Bool :=
  decide (K = Kind.Component) || decide (d = K)

/-- The ways a call leaves this embedding: undefined behaviour of the C++ code, or a
pointer to an entity other than the one at hand. -/
inductive Fault where
  /-- subscript past the end of `components` -/
  | outOfBounds
  /-- dereference of a null `modelPtr` or of an empty `std::optional` -/
  | nullDeref
  /-- the back-reference `object` does not designate the entity being ticked -/
  | foreignObject
  /-- a callback uses a captured reference to a component that is not there -/
  | danglingReference
  /-- signed overflow of an `int` -/
  | signedOverflow
  deriving DecidableEq, Repr

/-- Mirror of `raylib::Vector3`. -/
structure Vector3 (F : Type) where
  x : F
  y : F
  z : F
  deriving DecidableEq, Repr

/-- Mirror of `raylib::Quaternion`. -/
structure Quaternion (F : Type) where
  x : F
  y : F
  z : F
  w : F
  deriving DecidableEq, Repr

/-- Mirror of `struct TransformComponent` (its own members). -/
structure TransformComponent (F : Type) where
  position : Vector3 F
  scale_X : F
  scale_Y : F
  scale_Z : F
  rotation : Quaternion F
  start_RotationX : F
  start_RotationY : F
  start_RotationZ : F
  heading : F
  deriving DecidableEq, Repr

/-- Mirror of `raylib::Model`, of which the code touches only `transform`. -/
structure Model (M : Type) where
  transform : M
  deriving DecidableEq, Repr

/-- Mirror of `struct RenderingComponent`: `modelPtr` is `none` when null. -/
structure RenderingComponent (M : Type) where
  modelPtr : Option (Model M)
  deriving DecidableEq, Repr

/-- Mirror of `struct PhysicsComponent` (its own members). -/
structure PhysicsComponent (F : Type) where
  velocity : Vector3 F
  object_Heading : F
  object_Speed : F
  speed : F
  acceleration_Rate : F
  turning_Rate : F
  max_Speed : F
  deriving DecidableEq, Repr

/-- The five callbacks bound by `InputComponent::setup`; a captured `physics` reference
is the index of that component in the entity. -/
inductive Callback where
  | Forward (physics : Nat)
  | Backward (physics : Nat)
  | Leftward (physics : Nat)
  | Rightward (physics : Nat)
  | Tabward
  deriving DecidableEq, Repr

/-- Mirror of `struct InputComponent`: `inputManager` lists the bound action names with
their callbacks, in binding order. -/
structure InputComponent where
  entityNumber : Int
  inputManager : List (String × Callback)
  deriving DecidableEq, Repr

/-- The most-derived part of a component object, one alternative per class. -/
inductive ComponentData (F M : Type) where
  | base
  | transform (t : TransformComponent F)
  | rendering (r : RenderingComponent M)
  | physics (p : PhysicsComponent F)
  | input (i : InputComponent)
  deriving DecidableEq, Repr

/-- Mirror of `struct Component`: the back-reference `object` (an entity address) and
the state of the dynamic class. -/
structure Component (F M : Type) where
  object : Nat
  data : ComponentData F M
  deriving DecidableEq, Repr

/-- The dynamic class of a component. -/
def Component.kind {F M : Type} (c : Component F M) : Kind :=
  match c.data with
  | ComponentData.base => Kind.Component
  | ComponentData.transform _ => Kind.TransformComponent
  | ComponentData.rendering _ => Kind.RenderingComponent
  | ComponentData.physics _ => Kind.PhysicsComponent
  | ComponentData.input _ => Kind.InputComponent

/-- The test `dynamic_cast<T*>(c.get()) != nullptr` for `T` the class `K`: the cast
succeeds when the dynamic class of `c` is `K` or derives from it. -/
def Component.dynamic_cast {F M : Type} (K : Kind) (c : Component F M) : Bool :=
  c.kind.derivedFrom K

/-- Mirror of `struct Entity`: `addr` is the address of the object (`this`),
`components` the owned vector. -/
structure Entity (F M : Type) where
  addr : Nat
  components : List (Component F M)
  deriving DecidableEq, Repr

/-! ## Typed lookup -/

/-- The loop `for (auto& c : components) if (dynamic_cast<T*>(c.get())) return ...`,
run on the part of the vector that starts at index `i`; `none` when the loop falls
through. -/
def scanFrom {F M : Type} (K : Kind) : List (Component F M) → Nat → Option Nat
  | [], _ => none
  | c :: cs, i => if c.dynamic_cast K then some i else scanFrom K cs (i + 1)

/-- Pointer overload `T* Entity::GetComponent()`: the index of the component pointed
to, `none` for `nullptr`. -/
def Entity.GetComponentPtr {F M : Type} (e : Entity F M) (K : Kind) : Option Nat :=
  scanFrom K e.components 0

/-- Optional overload `std::optional<std::reference_wrapper<T>> Entity::GetComponent()`:
for `T = TransformComponent` it first reads `components[0]` unchecked, then scans. -/
def Entity.GetComponent {F M : Type} (e : Entity F M) (K : Kind) :
    Except Fault (Option Nat) :=
  if K = Kind.TransformComponent then
    match e.components with
    | [] => Except.error Fault.outOfBounds
    | c0 :: _ =>
      if c0.dynamic_cast K then Except.ok (some 0)
      else Except.ok (scanFrom K e.components 0)
  else Except.ok (scanFrom K e.components 0)

/-! ## Construction -/

/-- Mirror of `raylib::Quaternion::Identity()`. -/
def Quaternion.Identity {F : Type} [LinearOrderedField F] : Quaternion F :=
  { x := 0, y := 0, z := 0, w := 1 }

/-- Mirror of `raylib::Vector3::operator*(float)`. -/
def Vector3.scale {F : Type} [LinearOrderedField F] (v : Vector3 F) (k : F) : Vector3 F :=
  { x := v.x * k, y := v.y * k, z := v.z * k }

/-- Mirror of `raylib::Vector3::operator+`, the sum used by `+=`. -/
def Vector3.add {F : Type} [LinearOrderedField F] (v w : Vector3 F) : Vector3 F :=
  { x := v.x + w.x, y := v.y + w.y, z := v.z + w.z }

/-- The instantiations `AddComponent<T>(args...)` that compile: the class `T` together
with an argument list accepted by one of its constructors.  `renderingNull` is the
constructor `RenderingComponent` inherits from `Component`; the value given to `input`
is the indeterminate initial content of `entityNumber`. -/
inductive Args (F M : Type) where
  | component
  | transform
  | transformAt (initialPosition : Vector3 F) (initialRotation : Quaternion F)
  | renderingNull
  | rendering (model : Model M)
  | physics (acceleration_Rate turning_Rate max_Speed : F)
  | input (entityNumber : Int)
  deriving DecidableEq, Repr

/-- The template argument `T` of an instantiation. -/
def Args.kind {F M : Type} : Args F M → Kind
  | Args.component => Kind.Component
  | Args.transform => Kind.TransformComponent
  | Args.transformAt _ _ => Kind.TransformComponent
  | Args.renderingNull => Kind.RenderingComponent
  | Args.rendering _ => Kind.RenderingComponent
  | Args.physics _ _ _ => Kind.PhysicsComponent
  | Args.input _ => Kind.InputComponent

/-- Default member initialisers of `TransformComponent`, with the given position and
rotation. -/
def TransformComponent.init {F : Type} [LinearOrderedField F]
    (position : Vector3 F) (rotation : Quaternion F) : TransformComponent F :=
  { position := position, scale_X := 1, scale_Y := 1, scale_Z := 1, rotation := rotation,
    start_RotationX := 0, start_RotationY := 0, start_RotationZ := 0, heading := 0 }

/-- The expression `std::make_unique<T>(*this, args...)`: the constructors of the five
classes, run for an entity at address `this`. -/
def construct {F M : Type} [LinearOrderedField F] (this : Nat) : Args F M → Component F M
  | Args.component => { object := this, data := ComponentData.base }
  | Args.transform =>
    { object := this,
      data := ComponentData.transform
        (TransformComponent.init { x := 0, y := 0, z := 0 } Quaternion.Identity) }
  | Args.transformAt initialPosition initialRotation =>
    { object := this,
      data := ComponentData.transform
        (TransformComponent.init initialPosition initialRotation) }
  | Args.renderingNull =>
    { object := this, data := ComponentData.rendering { modelPtr := none } }
  | Args.rendering model =>
    { object := this, data := ComponentData.rendering { modelPtr := some model } }
  | Args.physics acceleration_Rate turning_Rate max_Speed =>
    { object := this,
      data := ComponentData.physics
        { velocity := { x := 0, y := 0, z := 0 }, object_Heading := 0, object_Speed := 0,
          speed := 0, acceleration_Rate := acceleration_Rate,
          turning_Rate := turning_Rate, max_Speed := max_Speed } }
  | Args.input entityNumber =>
    { object := this,
      data := ComponentData.input { entityNumber := entityNumber, inputManager := [] } }

/-- Mirror of `Entity::AddComponent<T>(args...)`: the returned index and the entity
afterwards. -/
def Entity.AddComponent {F M : Type} [LinearOrderedField F] (e : Entity F M)
    (a : Args F M) : Nat × Entity F M :=
  let c := construct e.addr a
  let components := e.components ++ [c]
  (components.length - 1, { e with components := components })

/-- Mirror of the constructor `Entity::Entity()`, for an object at address `this`. -/
def Entity.ctor {F M : Type} [LinearOrderedField F] (this : Nat) : Entity F M :=
  (Entity.AddComponent { addr := this, components := [] } Args.transform).2

/-- Mirror of the move constructor `Entity::Entity(Entity&& other)` for a new object at
address `this`: the new entity, and `other` as the move leaves it (its vector is
empty). -/
def Entity.moveCtor {F M : Type} (this : Nat) (other : Entity F M) :
    Entity F M × Entity F M :=
  ({ addr := this, components := other.components.map (fun c => { c with object := this }) },
   { other with components := [] })

/-- An entity as `main` sets entities up: `Entity()` followed by `AddComponent` calls. -/
def Entity.build {F M : Type} [LinearOrderedField F] (this : Nat) (as : List (Args F M)) :
    Entity F M :=
  as.foldl (fun e a => (e.AddComponent a).2) (Entity.ctor this)

/-! ## Per-frame tick -/

/-- Library functions the component ticks call and the repository does not define:
`cos` and `sin` of `<cmath>`, and `raylib::Transform(m).RotateXYZ(x, y, z)`. -/
structure Backend (F M : Type) where
  cos : F → F
  sin : F → F
  RotateXYZ : M → F → F → F → M

/-- Mirror of `PhysicsComponent::tick(dt)`.  `p` is `*this` and `obj` the entity that
`object` points to; the result is `*this` and that entity after the call.  The local
`object_Speed` declared at the top of the body hides the member of the same name, and
`transform` is bound to the Transform's `position`, so `transform.y` is `position.y`. -/
def PhysicsComponent.tick {F M : Type} [LinearOrderedField F] (B : Backend F M) (dt : F)
    (p : PhysicsComponent F) (obj : Entity F M) :
    Except Fault (PhysicsComponent F × Entity F M) :=
  let object_Speed : F := 0
  match obj.GetComponent Kind.TransformComponent with
  | Except.error f => Except.error f
  | Except.ok none => Except.ok (p, obj)
  | Except.ok (some j) =>
    match obj.components[j]? with
    | some { object := o, data := ComponentData.transform t } =>
      let speed1 := if object_Speed > p.speed then p.speed + p.acceleration_Rate * dt else p.speed
      let speed2 := if object_Speed < speed1 then speed1 - p.acceleration_Rate * dt else speed1
      let y1 :=
        if p.object_Heading > t.position.y then t.position.y + p.turning_Rate * dt
        else t.position.y
      let y2 := if p.object_Heading < y1 then y1 - p.turning_Rate * dt else y1
      let velocity : Vector3 F := { x := speed2 * B.cos y2, y := 0, z := -speed2 * B.sin y2 }
      let position : Vector3 F :=
        Vector3.add { x := t.position.x, y := y2, z := t.position.z } (velocity.scale dt)
      Except.ok
        ({ p with speed := speed2, velocity := velocity },
         { obj with
           components :=
             obj.components.set j
               { object := o, data := ComponentData.transform { t with position := position } } })
    | _ => Except.ok (p, obj)

/-- Mirror of `RenderingComponent::tick(dt)`.  `r` is `*this`, `obj` the entity that
`object` points to, `draws` the transforms the model had at each `Draw` call so far. -/
def RenderingComponent.tick {F M : Type} (B : Backend F M) (_dt : F)
    (r : RenderingComponent M) (obj : Entity F M) (draws : List M) :
    Except Fault (RenderingComponent M × List M) :=
  match obj.GetComponent Kind.TransformComponent with
  | Except.error f => Except.error f
  | Except.ok none => Except.ok (r, draws)
  | Except.ok (some j) =>
    match obj.components[j]? with
    | some { object := _, data := ComponentData.transform t } =>
      match r.modelPtr with
      | none => Except.error Fault.nullDeref
      | some m =>
        let backup := m.transform
        let m1 : Model M :=
          { m with transform := B.RotateXYZ m.transform t.position.x t.position.y t.position.z }
        let draws1 := draws ++ [m1.transform]
        let m2 : Model M := { m1 with transform := backup }
        Except.ok ({ r with modelPtr := some m2 }, draws1)
    | _ => Except.ok (r, draws)

/-- The state threaded through `Entity::tick`: the entity, the virtual calls
`components[i]->tick(dt)` made so far (index and argument, oldest first), and the
transforms the models had at each `Draw` call so far. -/
structure Frame (F M : Type) where
  entity : Entity F M
  calls : List (Nat × F)
  draws : List M

/-- The virtual call `components[i]->tick(dt)`: `Component::tick` (empty body) for the
classes that do not override it, the override otherwise.  An override reaches its
entity through `object`; this embedding follows that pointer only when it designates
the entity being ticked. -/
def Component.tick {F M : Type} [LinearOrderedField F] (B : Backend F M) (dt : F) (i : Nat)
    (s : Frame F M) : Except Fault (Frame F M) :=
  match s.entity.components[i]? with
  | none => Except.error Fault.outOfBounds
  | some c =>
    match c.data with
    | ComponentData.base => Except.ok s
    | ComponentData.transform _ => Except.ok s
    | ComponentData.input _ => Except.ok s
    | ComponentData.rendering r =>
      if c.object = s.entity.addr then
        match RenderingComponent.tick B dt r s.entity s.draws with
        | Except.error f => Except.error f
        | Except.ok (r1, draws1) =>
          Except.ok
            { s with
              entity :=
                { s.entity with
                  components :=
                    s.entity.components.set i
                      { object := c.object, data := ComponentData.rendering r1 } },
              draws := draws1 }
      else Except.error Fault.foreignObject
    | ComponentData.physics p =>
      if c.object = s.entity.addr then
        match PhysicsComponent.tick B dt p s.entity with
        | Except.error f => Except.error f
        | Except.ok (p1, obj1) =>
          Except.ok
            { s with
              entity :=
                { obj1 with
                  components :=
                    obj1.components.set i
                      { object := c.object, data := ComponentData.physics p1 } } }
      else Except.error Fault.foreignObject

/-- The body of the loop of `Entity::tick` at index `i`: the call is made, then runs. -/
def Entity.tickStep {F M : Type} [LinearOrderedField F] (B : Backend F M) (dt : F)
    (s : Frame F M) (i : Nat) : Except Fault (Frame F M) :=
  Component.tick B dt i { s with calls := s.calls ++ [(i, dt)] }

/-- The loop of `Entity::tick` over the indices `is`, stopping at a fault. -/
def Entity.tickLoop {F M : Type} [LinearOrderedField F] (B : Backend F M) (dt : F) :
    List Nat → Frame F M → Except Fault (Frame F M)
  | [], s => Except.ok s
  | i :: is, s =>
    match Entity.tickStep B dt s i with
    | Except.error f => Except.error f
    | Except.ok s1 => Entity.tickLoop B dt is s1

/-- Mirror of `Entity::tick(dt)`: the range-for visits the positions between `begin()`
and `end()`, both taken once before the first iteration. -/
def Entity.tick {F M : Type} [LinearOrderedField F] (B : Backend F M) (dt : F)
    (s : Frame F M) : Except Fault (Frame F M) :=
  Entity.tickLoop B dt (List.range s.entity.components.length) s

/-! ## Predicates used in the statements -/

/-- Position `i` of `cs` holds a component that `dynamic_cast<K*>` accepts, and no
earlier position does: `i` is the first match in insertion order. -/
def IsFirstMatch {F M : Type} (K : Kind) (cs : List (Component F M)) (i : Nat) : Prop :=
  (∃ c, cs[i]? = some c ∧ c.dynamic_cast K = true) ∧
    ∀ j, j < i → ∀ c, cs[j]? = some c → c.dynamic_cast K = false

/-- The entity has at least one component and the one at index 0 is a
`TransformComponent`. -/
def Entity.TransformFirst {F M : Type} (e : Entity F M) : Prop :=
  1 ≤ e.components.length ∧
    e.components[0]?.map Component.kind = some Kind.TransformComponent

/-- A `RenderingComponent` built by the constructor inherited from `Component` has a
null `modelPtr`; every other component passes this test. -/
def Component.hasModel {F M : Type} (c : Component F M) : Bool :=
  match c.data with
  | ComponentData.rendering r => r.modelPtr.isSome
  | _ => true

/-- Every component back-references the entity that owns it, and no `modelPtr` is
null. -/
def Entity.WellFormed {F M : Type} (e : Entity F M) : Bool :=
  e.components.all (fun c => decide (c.object = e.addr) && c.hasModel)

/-- The two consecutive comparisons of `PhysicsComponent::tick` (lines 160-163 for the
speed, 164-167 for the heading) as a function of the target, the rate, `dt` and the
current value. -/
def approach {F : Type} [LinearOrderedField F] (target rate dt v : F) : F :=
  let v1 := if target > v then v + rate * dt else v
  if target < v1 then v1 - rate * dt else v1

/-- The entity `plane1` of `main`: `Entity()`, a `RenderingComponent` for the loaded
model, a `PhysicsComponent(0.1, 0.1, 10)`. -/
def plane1 {F M : Type} [LinearOrderedField F] (this : Nat) (model : Model M) : Entity F M :=
  Entity.build this [Args.rendering model, Args.physics (1 / 10) (1 / 10) 10]

/-- The entity `boat1` of `main`, which adds a second `TransformComponent` at position
(0, 0, 1) with rotation `q` between its Rendering and Physics components. -/
def boat1 {F M : Type} [LinearOrderedField F] (this : Nat) (model : Model M)
    (q : Quaternion F) : Entity F M :=
  Entity.build this
    [Args.rendering model, Args.transformAt { x := 0, y := 0, z := 1 } q,
      Args.physics (1 / 10) (1 / 10) 10]

/-- A backend over `ℚ` for evaluating examples: any functions with `cos 0 = 1` and
`sin 0 = 0` serve, and matrices are left abstract. -/
def exampleBackend : Backend ℚ Unit :=
  { cos := fun x => 1 - x * x / 2, sin := fun x => x, RotateXYZ := fun m _ _ _ => m }

/-! ## Input -/

/-- The assignment `inputManager[name] = action`: the entry for `name` is replaced, or
added when there is none. -/
def bindAction (name : String) (cb : Callback) (m : List (String × Callback)) :
    List (String × Callback) :=
  m.filter (fun b => decide (b.1 ≠ name)) ++ [(name, cb)]

/-- Mirror of `InputComponent::setup()`.  `inp` is `*this` and `obj` the entity that
`object` points to.  The result of the lookup is dereferenced (`physicsRef->get()`)
without a test. -/
def InputComponent.setup {F M : Type} (inp : InputComponent) (obj : Entity F M) :
    Except Fault InputComponent :=
  match obj.GetComponent Kind.PhysicsComponent with
  | Except.error f => Except.error f
  | Except.ok none => Except.error Fault.nullDeref
  | Except.ok (some physics) =>
    Except.ok
      { inp with
        inputManager :=
          bindAction "Tabward" Callback.Tabward
            (bindAction "Rightward" (Callback.Rightward physics)
              (bindAction "Leftward" (Callback.Leftward physics)
                (bindAction "Backward" (Callback.Backward physics)
                  (bindAction "Forward" (Callback.Forward physics) inp.inputManager)))) }

/-- A callback's access to the captured `physics`: the component at index `k` is
replaced by `f` of it. -/
def Entity.updatePhysics {F M : Type} (e : Entity F M) (k : Nat)
    (f : PhysicsComponent F → PhysicsComponent F) : Except Fault (Entity F M) :=
  match e.components[k]? with
  | some { object := o, data := ComponentData.physics p } =>
    Except.ok
      { e with
        components := e.components.set k { object := o, data := ComponentData.physics (f p) } }
  | _ => Except.error Fault.danglingReference

/-- Largest value of `int`. -/
def INT_MAX : Int := 2147483647

/-- The bodies of the lambdas bound in `InputComponent::setup`, run on the entity that
holds the captured components; `self` is the index of the `InputComponent` captured as
`this`.  The remainder `%` of C++ truncates toward zero. -/
def Callback.fire {F M : Type} [LinearOrderedField F] (cb : Callback) (self : Nat)
    (e : Entity F M) : Except Fault (Entity F M) :=
  match cb with
  | Callback.Forward k =>
    e.updatePhysics k (fun p => { p with object_Speed := p.object_Speed + 20 })
  | Callback.Backward k =>
    e.updatePhysics k (fun p => { p with object_Speed := p.object_Speed - 20 })
  | Callback.Leftward k =>
    e.updatePhysics k (fun p => { p with object_Heading := p.object_Heading + 60 })
  | Callback.Rightward k =>
    e.updatePhysics k (fun p => { p with object_Heading := p.object_Heading - 60 })
  | Callback.Tabward =>
    match e.components[self]? with
    | some { object := o, data := ComponentData.input i } =>
      if i.entityNumber + 1 > INT_MAX then Except.error Fault.signedOverflow
      else
        Except.ok
          { e with
            components :=
              e.components.set self
                { object := o,
                  data := ComponentData.input
                    { i with entityNumber := (i.entityNumber + 1).tmod 10 } } }
    | _ => Except.error Fault.danglingReference

/-- What happens to an entity between frames and in a frame: the main loop calls
`e.tick(dt)`, a single virtual call `components[i]->tick(dt)` is made, or the input
manager fires a bound callback of the `InputComponent` at index `self`. -/
inductive Step (F : Type) where
  | tick (dt : F)
  | tickOne (i : Nat) (dt : F)
  | press (self : Nat) (cb : Callback)

/-- One step on a frame. -/
def Step.run {F M : Type} [LinearOrderedField F] (B : Backend F M) (st : Step F)
    (s : Frame F M) : Except Fault (Frame F M) :=
  match st with
  | Step.tick dt => Entity.tick B dt s
  | Step.tickOne i dt => Entity.tickStep B dt s i
  | Step.press self cb =>
    match cb.fire self s.entity with
    | Except.error f => Except.error f
    | Except.ok e1 => Except.ok { s with entity := e1 }

/-- A finite sequence of steps, oldest first, stopping at a fault. -/
def runSteps {F M : Type} [LinearOrderedField F] (B : Backend F M) :
    List (Step F) → Frame F M → Except Fault (Frame F M)
  | [], s => Except.ok s
  | st :: sts, s =>
    match st.run B s with
    | Except.error f => Except.error f
    | Except.ok s1 => runSteps B sts s1

/-- The step is a tick of the entity or of one of its components, or one of the four
callbacks that change `object_Speed` or `object_Heading`, bound to a `PhysicsComponent`
of an entity whose component classes are `kinds`. -/
def Step.DrivesPhysics {F : Type} (kinds : List Kind) : Step F → Prop
  | Step.tick _ => True
  | Step.tickOne i _ => i < kinds.length
  | Step.press _ (Callback.Forward k) => kinds[k]? = some Kind.PhysicsComponent
  | Step.press _ (Callback.Backward k) => kinds[k]? = some Kind.PhysicsComponent
  | Step.press _ (Callback.Leftward k) => kinds[k]? = some Kind.PhysicsComponent
  | Step.press _ (Callback.Rightward k) => kinds[k]? = some Kind.PhysicsComponent
  | Step.press _ Callback.Tabward => False

/-- Every `PhysicsComponent` of the entity is as its constructor leaves it where the
speed is concerned: `speed = 0`, with a `max_Speed` that is not negative. -/
def Entity.PhysicsAtRest {F M : Type} [LinearOrderedField F] (e : Entity F M) : Prop :=
  ∀ c ∈ e.components, ∀ p, c.data = ComponentData.physics p → p.speed = 0 ∧ 0 ≤ p.max_Speed

/-- Every `PhysicsComponent` of the entity has `|speed| <= max_Speed`. -/
def Entity.SpeedBounded {F M : Type} [LinearOrderedField F] (e : Entity F M) : Prop :=
  ∀ c ∈ e.components, ∀ p, c.data = ComponentData.physics p → |p.speed| ≤ p.max_Speed

/-- The roster `entities` of `main` once both `emplace_back` calls and the
`AddComponent` calls have run: `plane1` and `boat1`. -/
def entities {F M : Type} [LinearOrderedField F] (planeModel boatModel : Model M)
    (q : Quaternion F) : List (Entity F M) :=
  [plane1 1 planeModel, boat1 2 boatModel q]

/-! ## Lookup -/

theorem dynamic_cast_variant {F M : Type} (K : Kind) (c : Component F M)
    (hK : K ≠ Kind.Component) : c.dynamic_cast K = true ↔ c.kind = K := by
  simp [Component.dynamic_cast, Kind.derivedFrom, hK]

theorem dynamic_cast_base {F M : Type} (c : Component F M) :
    c.dynamic_cast Kind.Component = true := by
  simp [Component.dynamic_cast, Kind.derivedFrom]

theorem scanFrom_eq_none_iff {F M : Type} (K : Kind) (cs : List (Component F M)) (i : Nat) :
    scanFrom K cs i = none ↔ ∀ c ∈ cs, c.dynamic_cast K = false := by
  induction cs generalizing i with
  | nil => simp [scanFrom]
  | cons c cs ih =>
    by_cases h : c.dynamic_cast K = true
    · simp [scanFrom, h]
    · simp [scanFrom, h, ih]

theorem scanFrom_eq_some_iff {F M : Type} (K : Kind) (cs : List (Component F M))
    (i k : Nat) : scanFrom K cs i = some k ↔ ∃ n, k = i + n ∧ IsFirstMatch K cs n := by
  induction cs generalizing i with
  | nil => simp [scanFrom, IsFirstMatch]
  | cons c cs ih =>
    by_cases h : c.dynamic_cast K = true
    · simp only [scanFrom, h, if_true, Option.some.injEq]
      constructor
      · rintro rfl
        exact ⟨0, rfl, ⟨c, by simp, h⟩, fun j hj => absurd hj (Nat.not_lt_zero j)⟩
      · rintro ⟨n, rfl, _, hn⟩
        rcases Nat.eq_zero_or_pos n with rfl | hpos
        · rfl
        · have h0 := hn 0 hpos c (by simp)
          rw [h] at h0
          cases h0
    · have hf : c.dynamic_cast K = false := by simpa using h
      simp only [scanFrom, hf, Bool.false_eq_true, if_false, ih]
      constructor
      · rintro ⟨n, rfl, ⟨d, hd, hcast⟩, hn⟩
        refine ⟨n + 1, by omega, ⟨d, by simpa using hd, hcast⟩, ?_⟩
        intro j hj d1 hd1
        cases j with
        | zero =>
          simp at hd1
          subst hd1
          exact hf
        | succ j => exact hn j (by omega) d1 (by simpa using hd1)
      · rintro ⟨n, rfl, ⟨d, hd, hcast⟩, hn⟩
        cases n with
        | zero =>
          simp at hd
          subst hd
          rw [hf] at hcast
          cases hcast
        | succ n =>
          exact ⟨n, by omega, ⟨d, by simpa using hd, hcast⟩,
            fun j hj d1 hd1 => hn (j + 1) (by omega) d1 (by simpa using hd1)⟩

/-- The pointer overload finds exactly the first match, and returns null exactly when
no component matches. -/
theorem GetComponentPtr_spec {F M : Type} (e : Entity F M) (K : Kind) :
    (∀ k, e.GetComponentPtr K = some k ↔ IsFirstMatch K e.components k) ∧
      (e.GetComponentPtr K = none ↔ ∀ c ∈ e.components, c.dynamic_cast K = false) := by
  refine ⟨fun k => ?_, scanFrom_eq_none_iff K e.components 0⟩
  unfold Entity.GetComponentPtr
  rw [scanFrom_eq_some_iff]
  constructor
  · rintro ⟨n, hk, hn⟩
    have : k = n := by omega
    subst this
    exact hn
  · intro h
    exact ⟨k, by omega, h⟩

/-- Away from the unchecked read of `components[0]` (a non-empty vector, or a kind other
than `TransformComponent`) the optional overload returns what the pointer overload
returns. -/
theorem GetComponent_eq_GetComponentPtr {F M : Type} (e : Entity F M) (K : Kind)
    (h : e.components ≠ [] ∨ K ≠ Kind.TransformComponent) :
    e.GetComponent K = Except.ok (e.GetComponentPtr K) := by
  unfold Entity.GetComponent Entity.GetComponentPtr
  by_cases hK : K = Kind.TransformComponent
  · rw [if_pos hK]
    cases hc : e.components with
    | nil =>
      rcases h with h | h
      · exact absurd hc h
      · exact absurd hK h
    | cons c0 cs =>
      by_cases h0 : c0.dynamic_cast K = true
      · simp [scanFrom, h0]
      · simp [h0]
  · rw [if_neg hK]

/-- C1 (lookup totality), evaluated where the code departs from it.  The claim asks
`GetComponent<K>` to return the empty result on an entity with N = 0 components.  The
entity a move leaves behind has N = 0; on it the pointer overload returns `nullptr`,
but the optional overload with `K = TransformComponent` reads `components[0]` past the
end of the vector instead of returning `nullopt`. -/
theorem GetComponent_moved_from_reads_past_end :
    ((Entity.moveCtor 2 (Entity.ctor 1 : Entity ℚ Unit)).2).components.length = 0 ∧
      ((Entity.moveCtor 2 (Entity.ctor 1 : Entity ℚ Unit)).2).GetComponent
          Kind.TransformComponent = Except.error Fault.outOfBounds ∧
      ((Entity.moveCtor 2 (Entity.ctor 1 : Entity ℚ Unit)).2).GetComponentPtr
          Kind.TransformComponent = none :=
  ⟨rfl, rfl, rfl⟩

/-! ## Construction, moves and the index-0 invariant -/

theorem AddComponent_components {F M : Type} [LinearOrderedField F] (e : Entity F M)
    (a : Args F M) :
    (e.AddComponent a).2.components = e.components ++ [construct e.addr a] ∧
      (e.AddComponent a).2.addr = e.addr :=
  ⟨rfl, rfl⟩

theorem ctor_components {F M : Type} [LinearOrderedField F] (this : Nat) :
    (Entity.ctor this : Entity F M).components = [construct this Args.transform] ∧
      (Entity.ctor this : Entity F M).addr = this :=
  ⟨rfl, rfl⟩

theorem construct_kind {F M : Type} [LinearOrderedField F] (this : Nat) (a : Args F M) :
    (construct this a).kind = a.kind := by
  cases a <;> rfl

theorem construct_object {F M : Type} [LinearOrderedField F] (this : Nat) (a : Args F M) :
    (construct this a).object = this := by
  cases a <;> rfl

theorem foldl_AddComponent {F M : Type} [LinearOrderedField F] (as : List (Args F M))
    (e : Entity F M) :
    (as.foldl (fun e a => (e.AddComponent a).2) e).components =
        e.components ++ as.map (construct e.addr) ∧
      (as.foldl (fun e a => (e.AddComponent a).2) e).addr = e.addr := by
  induction as generalizing e with
  | nil => simp
  | cons a as ih =>
    rw [List.foldl_cons]
    obtain ⟨h1, h2⟩ := ih (e.AddComponent a).2
    rw [h1, h2]
    simp [(AddComponent_components e a).1, (AddComponent_components e a).2]

theorem build_components {F M : Type} [LinearOrderedField F] (this : Nat)
    (as : List (Args F M)) :
    (Entity.build this as).components =
        construct this Args.transform :: as.map (construct this) ∧
      (Entity.build this as).addr = this := by
  obtain ⟨h1, h2⟩ := foldl_AddComponent as (Entity.ctor this : Entity F M)
  unfold Entity.build
  rw [h1, h2]
  simp [(ctor_components (F := F) (M := M) this).1, (ctor_components (F := F) (M := M) this).2]

/-- C2 (index-0 invariant).  "At least one component, and the component at index 0 is a
TransformComponent" holds for a freshly constructed `Entity()`, still holds after
`AddComponent<K>(args)` on an entity `e` that satisfied it, for every instantiation, and
holds for the destination of a move whose source `src` satisfied it. -/
theorem transform_first_invariant {F M : Type} [LinearOrderedField F] (this dst : Nat)
    (e src : Entity F M) (a : Args F M) (he : e.TransformFirst)
    (hsrc : src.TransformFirst) :
    (Entity.ctor this : Entity F M).TransformFirst ∧
      (e.AddComponent a).2.TransformFirst ∧
      (Entity.moveCtor dst src).1.TransformFirst := by
  refine ⟨⟨by simp [(ctor_components (F := F) (M := M) this).1], ?_⟩, ?_, ?_⟩
  · simp [(ctor_components (F := F) (M := M) this).1, construct_kind, Args.kind]
  · obtain ⟨hlen, h0⟩ := he
    rw [Entity.TransformFirst, (AddComponent_components e a).1]
    cases hc : e.components with
    | nil => simp [hc] at hlen
    | cons c cs =>
      rw [hc] at h0
      exact ⟨by simp, by simpa using h0⟩
  · obtain ⟨hlen, h0⟩ := hsrc
    unfold Entity.TransformFirst Entity.moveCtor
    cases hc : src.components with
    | nil => simp [hc] at hlen
    | cons c cs =>
      rw [hc] at h0
      refine ⟨by simp, ?_⟩
      simp only [List.map_cons, List.getElem?_cons_zero, Option.map_some', Option.some.injEq]
      simp only [List.getElem?_cons_zero, Option.map_some', Option.some.injEq] at h0
      simpa [Component.kind] using h0

/-- Witness of C2 on the entity `plane1` of `main` being built and then moved. -/
theorem transform_first_invariant_witness :
    (Entity.ctor 1 : Entity ℚ Unit).TransformFirst ∧
      ((Entity.ctor 1 : Entity ℚ Unit).AddComponent (Args.physics (1 / 10) (1 / 10) 10)).2.TransformFirst ∧
      (Entity.moveCtor 2 (Entity.ctor 1 : Entity ℚ Unit)).1.TransformFirst :=
  transform_first_invariant 1 2 (Entity.ctor 1) (Entity.ctor 1) (Args.physics (1 / 10) (1 / 10) 10)
    ⟨by decide, rfl⟩ ⟨by decide, rfl⟩

/-- C3 (ordering).  For `Entity()` followed by any finite sequence of `AddComponent`
calls, further `TransformComponent`s included, `GetComponent<TransformComponent>`
(either overload) designates index 0, and the component there is the Transform that the
constructor `Entity()` created.  `boat1` of `main`, whose kinds are
[Transform, Render, Transform, Physics], is an instance. -/
theorem GetComponent_Transform_build {F M : Type} [LinearOrderedField F] (this : Nat)
    (as : List (Args F M)) :
    (Entity.build this as).GetComponent Kind.TransformComponent = Except.ok (some 0) ∧
      (Entity.build this as).GetComponentPtr Kind.TransformComponent = some 0 ∧
      (Entity.build this as).components[0]? = some (construct this Args.transform) ∧
      ∀ (model : Model M) (q : Quaternion F),
        (boat1 this model q : Entity F M).components.map Component.kind =
            [Kind.TransformComponent, Kind.RenderingComponent, Kind.TransformComponent,
              Kind.PhysicsComponent] ∧
          (boat1 this model q : Entity F M).GetComponent Kind.TransformComponent =
            Except.ok (some 0) := by
  have hcast : (construct this (Args.transform : Args F M)).dynamic_cast
      Kind.TransformComponent = true := by
    rfl
  have key : ∀ bs : List (Args F M),
      (Entity.build this bs).GetComponent Kind.TransformComponent = Except.ok (some 0) := by
    intro bs
    unfold Entity.GetComponent
    rw [(build_components this bs).1]
    simp [hcast]
  have hc := (build_components this as).1
  refine ⟨key as, ?_, ?_, fun model q => ⟨?_, key _⟩⟩
  · unfold Entity.GetComponentPtr
    rw [hc]
    simp [scanFrom, hcast]
  · rw [hc]
    simp
  · unfold boat1
    rw [(build_components this _).1]
    rfl

/-- C4 (the two calling conventions), evaluated where the code departs from it.  On the
entity a move leaves behind, the pointer overload of `GetComponent<TransformComponent>`
returns `nullptr` while the optional overload does not return `nullopt`: its index-0
fast path reads `components[0]` of an empty vector. -/
theorem GetComponent_overloads_differ_on_moved_from :
    ((Entity.moveCtor 2 (Entity.ctor 1 : Entity ℚ Unit)).2).GetComponentPtr
        Kind.TransformComponent = none ∧
      ((Entity.moveCtor 2 (Entity.ctor 1 : Entity ℚ Unit)).2).GetComponent
          Kind.TransformComponent ≠
        Except.ok
          (((Entity.moveCtor 2 (Entity.ctor 1 : Entity ℚ Unit)).2).GetComponentPtr
            Kind.TransformComponent) := by
  refine ⟨rfl, ?_⟩
  intro h
  have h1 : ((Entity.moveCtor 2 (Entity.ctor 1 : Entity ℚ Unit)).2).GetComponent
      Kind.TransformComponent = Except.error Fault.outOfBounds := rfl
  rw [h1] at h
  cases h

/-- C5 (AddComponent).  `AddComponent<K>(args)` returns the previous length of the
component vector, leaves the vector equal to the previous one followed by the newly
constructed component (of class `K`, back-referencing this entity), so the previous
components keep their indices and state, and the returned index designates the new
component. -/
theorem AddComponent_appends {F M : Type} [LinearOrderedField F] (e : Entity F M)
    (a : Args F M) :
    (e.AddComponent a).1 = e.components.length ∧
      (e.AddComponent a).2.components = e.components ++ [construct e.addr a] ∧
      (construct e.addr a).kind = a.kind ∧
      (e.AddComponent a).2.components.take e.components.length = e.components ∧
      (e.AddComponent a).2.components[(e.AddComponent a).1]? = some (construct e.addr a) ∧
      (e.AddComponent a).2.components.length = e.components.length + 1 := by
  have h1 : (e.AddComponent a).1 = e.components.length := by
    simp [Entity.AddComponent]
  refine ⟨h1, rfl, construct_kind _ _, ?_, ?_, ?_⟩
  · simp [(AddComponent_components e a).1]
  · rw [h1, (AddComponent_components e a).1]
    simp
  · simp [(AddComponent_components e a).1]

/-! ## Entity::tick -/

theorem WellFormed_iff {F M : Type} (e : Entity F M) :
    e.WellFormed = true ↔ ∀ c ∈ e.components, c.object = e.addr ∧ c.hasModel = true := by
  simp [Entity.WellFormed, List.all_eq_true]

theorem owned_set {F M : Type} (a : Nat) (cs : List (Component F M)) (j : Nat)
    (d : Component F M) (h : ∀ c ∈ cs, c.object = a ∧ c.hasModel = true)
    (hd : d.object = a ∧ d.hasModel = true) :
    ∀ c ∈ cs.set j d, c.object = a ∧ c.hasModel = true := by
  intro c hc
  rcases List.mem_or_eq_of_mem_set hc with hc | rfl
  · exact h c hc
  · exact hd

theorem PhysicsComponent_tick_ok {F M : Type} [LinearOrderedField F] (B : Backend F M) (dt : F)
    (p : PhysicsComponent F) (obj : Entity F M) (hne : obj.components ≠ []) :
    ∃ p1 obj1, PhysicsComponent.tick B dt p obj = Except.ok (p1, obj1) ∧
      obj1.addr = obj.addr ∧ obj1.components.length = obj.components.length ∧
      (obj.WellFormed = true → obj1.WellFormed = true) := by
  unfold PhysicsComponent.tick
  rw [GetComponent_eq_GetComponentPtr obj _ (Or.inl hne)]
  cases hr : obj.GetComponentPtr Kind.TransformComponent with
  | none => exact ⟨p, obj, rfl, rfl, rfl, id⟩
  | some j =>
    simp only []
    split
    · rename_i o t hj
      refine ⟨_, _, rfl, rfl, by simp, ?_⟩
      intro hwf
      rw [WellFormed_iff] at hwf ⊢
      have hmem : (⟨o, ComponentData.transform t⟩ : Component F M) ∈ obj.components :=
        List.getElem?_mem hj
      exact owned_set _ _ _ _ hwf ⟨(hwf _ hmem).1, rfl⟩
    · exact ⟨p, obj, rfl, rfl, rfl, id⟩

theorem RenderingComponent_tick_ok {F M : Type} (B : Backend F M) (dt : F)
    (r : RenderingComponent M) (obj : Entity F M) (draws : List M)
    (hne : obj.components ≠ []) (hr : r.modelPtr.isSome = true) :
    ∃ r1 draws1, RenderingComponent.tick B dt r obj draws = Except.ok (r1, draws1) ∧
      r1.modelPtr.isSome = true := by
  unfold RenderingComponent.tick
  rw [GetComponent_eq_GetComponentPtr obj _ (Or.inl hne)]
  cases obj.GetComponentPtr Kind.TransformComponent with
  | none => exact ⟨r, draws, rfl, hr⟩
  | some j =>
    simp only []
    split
    · cases hm : r.modelPtr with
      | none => simp [hm] at hr
      | some m => exact ⟨_, _, rfl, rfl⟩
    · exact ⟨r, draws, rfl, hr⟩

theorem Component_tick_calls {F M : Type} [LinearOrderedField F] (B : Backend F M) (dt : F)
    (i : Nat) (s s1 : Frame F M) (h : Component.tick B dt i s = Except.ok s1) :
    s1.calls = s.calls := by
  unfold Component.tick at h
  split at h
  · cases h
  · split at h
    · cases h; rfl
    · cases h; rfl
    · cases h; rfl
    · split at h
      · split at h
        · cases h
        · cases h; rfl
      · cases h
    · split at h
      · split at h
        · cases h
        · cases h; rfl
      · cases h

theorem Component_tick_ok {F M : Type} [LinearOrderedField F] (B : Backend F M) (dt : F)
    (i : Nat) (s : Frame F M) (hi : i < s.entity.components.length)
    (hwf : s.entity.WellFormed = true) :
    ∃ s1, Component.tick B dt i s = Except.ok s1 ∧
      s1.entity.components.length = s.entity.components.length ∧
      s1.entity.WellFormed = true := by
  have hne : s.entity.components ≠ [] := by
    intro h
    rw [h] at hi
    exact absurd hi (Nat.not_lt_zero i)
  have hwf1 := (WellFormed_iff s.entity).1 hwf
  unfold Component.tick
  have hget : s.entity.components[i]? = some (s.entity.components[i]) := by
    simp [hi]
  have hmem : s.entity.components[i] ∈ s.entity.components := List.getElem?_mem hget
  obtain ⟨hobj, hmodel⟩ := hwf1 _ hmem
  rw [hget]
  simp only []
  generalize s.entity.components[i] = c at hobj hmodel
  obtain ⟨o, d⟩ := c
  simp only at hobj
  subst hobj
  cases d with
  | base => exact ⟨s, rfl, rfl, hwf⟩
  | transform t => exact ⟨s, rfl, rfl, hwf⟩
  | input n => exact ⟨s, rfl, rfl, hwf⟩
  | rendering r =>
    obtain ⟨r1, draws1, h1, h2⟩ :=
      RenderingComponent_tick_ok B dt r s.entity s.draws hne (by simpa [Component.hasModel] using hmodel)
    simp only [if_true, h1]
    refine ⟨_, rfl, by simp, ?_⟩
    rw [WellFormed_iff]
    exact owned_set _ _ _ _ hwf1 ⟨rfl, by simpa [Component.hasModel] using h2⟩
  | physics p =>
    obtain ⟨p1, obj1, h1, h2, h3, h4⟩ := PhysicsComponent_tick_ok B dt p s.entity hne
    simp only [if_true, h1]
    refine ⟨_, rfl, by simp [h3], ?_⟩
    rw [WellFormed_iff]
    have h5 := (WellFormed_iff obj1).1 (h4 hwf)
    exact owned_set _ _ _ _ h5 ⟨h2.symm, rfl⟩

theorem tickLoop_calls {F M : Type} [LinearOrderedField F] (B : Backend F M) (dt : F)
    (is : List Nat) (s s1 : Frame F M) (h : Entity.tickLoop B dt is s = Except.ok s1) :
    s1.calls = s.calls ++ is.map (fun i => (i, dt)) := by
  induction is generalizing s with
  | nil =>
    simp only [Entity.tickLoop, Except.ok.injEq] at h
    simp [h]
  | cons i is ih =>
    unfold Entity.tickLoop at h
    split at h
    · cases h
    · rename_i s2 hs2
      rw [ih s2 h, Component_tick_calls B dt i _ s2 hs2]
      simp

theorem tickLoop_ok {F M : Type} [LinearOrderedField F] (B : Backend F M) (dt : F)
    (is : List Nat) (s : Frame F M) (his : ∀ i ∈ is, i < s.entity.components.length)
    (hwf : s.entity.WellFormed = true) :
    ∃ s1, Entity.tickLoop B dt is s = Except.ok s1 ∧
      s1.entity.components.length = s.entity.components.length ∧
      s1.entity.WellFormed = true := by
  induction is generalizing s with
  | nil => exact ⟨s, rfl, rfl, hwf⟩
  | cons i is ih =>
    obtain ⟨s2, h1, h2, h3⟩ :=
      Component_tick_ok B dt i { s with calls := s.calls ++ [(i, dt)] }
        (his i (List.mem_cons_self i is)) hwf
    obtain ⟨s3, h4, h5, h6⟩ :=
      ih s2 (fun k hk => by rw [h2]; exact his k (List.mem_cons_of_mem i hk)) h3
    refine ⟨s3, ?_, by rw [h5, h2], h6⟩
    unfold Entity.tickLoop Entity.tickStep
    rw [h1]
    exact h4


/-- C7 (back-references).  The component `AddComponent` constructs back-references the
entity it is added to, so an entity whose components all back-reference it keeps that
property; the same holds after `Entity()`.  After move-constructing an entity at
address `this` from `other` (a different object), every component of the new entity
back-references `this` and none back-references `other`; the components are the same
sequence with the same class state, and `other` is left owning none. -/
theorem back_reference_owner {F M : Type} [LinearOrderedField F] (e other : Entity F M)
    (a : Args F M) (this : Nat) (he : ∀ c ∈ e.components, c.object = e.addr)
    (hne : this ≠ other.addr) :
    (construct e.addr a).object = e.addr ∧
      (∀ c ∈ (e.AddComponent a).2.components, c.object = (e.AddComponent a).2.addr) ∧
      (∀ c ∈ (Entity.ctor this : Entity F M).components,
        c.object = (Entity.ctor this : Entity F M).addr) ∧
      (Entity.moveCtor this other).1.addr = this ∧
      (∀ c ∈ (Entity.moveCtor this other).1.components,
        c.object = this ∧ c.object ≠ other.addr) ∧
      (Entity.moveCtor this other).1.components.map Component.data =
        other.components.map Component.data ∧
      (Entity.moveCtor this other).2.components = [] := by
  refine ⟨construct_object _ _, ?_, ?_, rfl, ?_, ?_, rfl⟩
  · intro c hc
    rw [(AddComponent_components e a).1] at hc
    rw [(AddComponent_components e a).2]
    rcases List.mem_append.1 hc with hc | hc
    · exact he c hc
    · rw [List.mem_singleton.1 hc]
      exact construct_object _ _
  · intro c hc
    rw [(ctor_components (F := F) (M := M) this).1] at hc
    rw [(ctor_components (F := F) (M := M) this).2, List.mem_singleton.1 hc]
    exact construct_object _ _
  · intro c hc
    simp only [Entity.moveCtor, List.mem_map] at hc
    obtain ⟨d, _, rfl⟩ := hc
    exact ⟨rfl, hne⟩
  · simp [Entity.moveCtor]

/-- Witness of C7: `plane1` built at address 1, then moved to address 2. -/
theorem back_reference_owner_witness :
    ((construct (plane1 1 { transform := () } : Entity ℚ Unit).addr
        (Args.input 0 : Args ℚ Unit)).object =
        (plane1 1 { transform := () } : Entity ℚ Unit).addr) ∧
      (∀ c ∈ ((plane1 1 { transform := () } : Entity ℚ Unit).AddComponent
          (Args.input 0)).2.components,
        c.object =
          ((plane1 1 { transform := () } : Entity ℚ Unit).AddComponent (Args.input 0)).2.addr) ∧
      (∀ c ∈ (Entity.ctor 2 : Entity ℚ Unit).components,
        c.object = (Entity.ctor 2 : Entity ℚ Unit).addr) ∧
      (Entity.moveCtor 2 (plane1 1 { transform := () } : Entity ℚ Unit)).1.addr = 2 ∧
      (∀ c ∈ (Entity.moveCtor 2 (plane1 1 { transform := () } : Entity ℚ Unit)).1.components,
        c.object = 2 ∧ c.object ≠ (plane1 1 { transform := () } : Entity ℚ Unit).addr) ∧
      (Entity.moveCtor 2 (plane1 1 { transform := () } : Entity ℚ Unit)).1.components.map
          Component.data =
        (plane1 1 { transform := () } : Entity ℚ Unit).components.map Component.data ∧
      (Entity.moveCtor 2 (plane1 1 { transform := () } : Entity ℚ Unit)).2.components = [] :=
  back_reference_owner (plane1 1 { transform := () }) (plane1 1 { transform := () })
    (Args.input 0) 2
    (fun c hc => by
      have h := (WellFormed_iff (plane1 1 { transform := () } : Entity ℚ Unit)).1 rfl c hc
      exact h.1)
    (by decide)

/-! ## PhysicsComponent::tick -/

theorem kind_Transform_data {F M : Type} (c : Component F M)
    (h : c.kind = Kind.TransformComponent) :
    ∃ t, c = { object := c.object, data := ComponentData.transform t } := by
  obtain ⟨o, d⟩ := c
  cases d <;> simp [Component.kind] at h
  exact ⟨_, rfl⟩

theorem GetComponent_Transform_some {F M : Type} (obj : Entity F M) (j : Nat)
    (h : obj.GetComponent Kind.TransformComponent = Except.ok (some j)) :
    ∃ o t, obj.components[j]? = some { object := o, data := ComponentData.transform t } := by
  have hne : obj.components ≠ [] := by
    intro hnil
    simp [Entity.GetComponent, hnil] at h
  rw [GetComponent_eq_GetComponentPtr obj _ (Or.inl hne)] at h
  have h1 : obj.GetComponentPtr Kind.TransformComponent = some j := by
    simpa using h
  obtain ⟨⟨c, hc, hcast⟩, _⟩ := ((GetComponentPtr_spec obj _).1 j).1 h1
  obtain ⟨t, ht⟩ := kind_Transform_data c ((dynamic_cast_variant _ c (by decide)).1 hcast)
  exact ⟨c.object, t, by rw [hc, ← ht]⟩

theorem GetComponent_Transform_of_mem {F M : Type} (obj : Entity F M)
    (h : ∃ c ∈ obj.components, c.kind = Kind.TransformComponent) :
    ∃ j, obj.GetComponent Kind.TransformComponent = Except.ok (some j) := by
  obtain ⟨c, hc, hk⟩ := h
  have hne : obj.components ≠ [] := List.ne_nil_of_mem hc
  rw [GetComponent_eq_GetComponentPtr obj _ (Or.inl hne)]
  cases hr : obj.GetComponentPtr Kind.TransformComponent with
  | some j => exact ⟨j, rfl⟩
  | none =>
    have h1 := (GetComponentPtr_spec obj Kind.TransformComponent).2.1 hr c hc
    rw [(dynamic_cast_variant _ c (by decide)).2 hk] at h1
    cases h1

/-- Closed form of `PhysicsComponent::tick` when the lookup finds a Transform. -/
theorem PhysicsComponent_tick_eq {F M : Type} [LinearOrderedField F] (B : Backend F M)
    (dt : F) (p : PhysicsComponent F) (obj : Entity F M) (j o : Nat)
    (t : TransformComponent F)
    (hj : obj.GetComponent Kind.TransformComponent = Except.ok (some j))
    (ht : obj.components[j]? = some { object := o, data := ComponentData.transform t }) :
    PhysicsComponent.tick B dt p obj =
      Except.ok
        ({ p with
           speed := approach 0 p.acceleration_Rate dt p.speed,
           velocity :=
             { x := approach 0 p.acceleration_Rate dt p.speed *
                 B.cos (approach p.object_Heading p.turning_Rate dt t.position.y),
               y := 0,
               z := -approach 0 p.acceleration_Rate dt p.speed *
                 B.sin (approach p.object_Heading p.turning_Rate dt t.position.y) } },
         { obj with
           components :=
             obj.components.set j
               { object := o,
                 data := ComponentData.transform
                   { t with
                     position :=
                       { x := t.position.x +
                           approach 0 p.acceleration_Rate dt p.speed *
                             B.cos (approach p.object_Heading p.turning_Rate dt t.position.y) * dt,
                         y := approach p.object_Heading p.turning_Rate dt t.position.y + 0 * dt,
                         z := t.position.z +
                           -approach 0 p.acceleration_Rate dt p.speed *
                             B.sin (approach p.object_Heading p.turning_Rate dt t.position.y) *
                             dt } } } }) := by
  unfold PhysicsComponent.tick
  rw [hj]
  simp only [ht]
  rfl


/-- C8 (speed moves toward the target `object_Speed`), evaluated where the code departs
from it.  `plane1` after the Forward callback has fired once has `object_Speed = 20`,
`speed = 0` and `acceleration_Rate = 0.1`.  One `tick(1)` should set `speed` to
`0.1 * 1`; the code leaves it at 0, because the comparisons read the local
`object_Speed = 0` declared in `tick`, not the member that holds the target. -/
theorem PhysicsComponent_tick_ignores_object_Speed :
    ∃ p1 obj1,
      PhysicsComponent.tick exampleBackend 1
          { velocity := { x := 0, y := 0, z := 0 }, object_Heading := 0, object_Speed := 20,
            speed := 0, acceleration_Rate := 1 / 10, turning_Rate := 1 / 10, max_Speed := 10 }
          (plane1 1 { transform := () }) = Except.ok (p1, obj1) ∧
        p1.speed = 0 ∧ p1.speed ≠ 1 / 10 * 1 ∧ p1.object_Speed = 20 := by
  refine ⟨_, _, PhysicsComponent_tick_eq exampleBackend 1 _ _ 0 1 _ rfl rfl, ?_, ?_, rfl⟩
  · norm_num [approach]
  · norm_num [approach]

/-- C9 fails as stated: with `speed = 10`, heading 0, target heading 0, `dt = 1` and
`acceleration_Rate = 0.1` (target speed 0), the position moves from (0, 0, 0) to
(9.9, 0, 0), not by (10, 0, 0): the speed step runs before the position update. -/
theorem position_update_counterexample :
    ∃ p1 obj1 t1,
      (Entity.ctor 1 : Entity ℝ Unit).components[0]? =
        some { object := 1,
               data := ComponentData.transform
                 (TransformComponent.init { x := 0, y := 0, z := 0 } Quaternion.Identity) } ∧
      PhysicsComponent.tick
          ({ cos := Real.cos, sin := Real.sin, RotateXYZ := fun m _ _ _ => m } : Backend ℝ Unit) 1
          { velocity := { x := 0, y := 0, z := 0 }, object_Heading := 0, object_Speed := 0,
            speed := 10, acceleration_Rate := 1 / 10, turning_Rate := 1 / 10, max_Speed := 10 }
          (Entity.ctor 1) = Except.ok (p1, obj1) ∧
      obj1.components[0]? = some { object := 1, data := ComponentData.transform t1 } ∧
      t1.position = ({ x := 99 / 10, y := 0, z := 0 } : Vector3 ℝ) ∧
      t1.position ≠
        Vector3.add ({ x := 0, y := 0, z := 0 } : Vector3 ℝ) { x := 10, y := 0, z := 0 } := by
  refine ⟨_, _, TransformComponent.init { x := 99 / 10, y := 0, z := 0 } Quaternion.Identity,
    rfl, PhysicsComponent_tick_eq _ 1 _ _ 0 1 _ rfl rfl, ?_, rfl, ?_⟩
  · simp only [Entity.ctor, Entity.AddComponent, construct, TransformComponent.init, approach]
    norm_num
  · simp only [TransformComponent.init, Vector3.add]
    norm_num

/-- C9 as amended.  On an entity whose heading (the value `transform.y` that `tick`
compares with the target heading) is 0 and whose target heading equals it, one tick with
`dt = 1` changes the Transform position by exactly
`(s * cos 0 * 1, 0, -s * sin 0 * 1) = (s, 0, 0)`, where `s` is the speed after this
tick's speed step; for `speed = 10` this is (10, 0, 0) when the speed step changes
nothing (`acceleration_Rate = 0`). -/
theorem position_update_heading_zero {F M : Type} [LinearOrderedField F] (B : Backend F M)
    (p : PhysicsComponent F) (obj : Entity F M) (j o : Nat) (t : TransformComponent F)
    (hcos : B.cos 0 = 1) (hsin : B.sin 0 = 0)
    (hj : obj.GetComponent Kind.TransformComponent = Except.ok (some j))
    (ht : obj.components[j]? = some { object := o, data := ComponentData.transform t })
    (hy : t.position.y = 0) (hh : p.object_Heading = t.position.y) :
    ∃ p1 obj1, PhysicsComponent.tick B 1 p obj = Except.ok (p1, obj1) ∧
      obj1.components[j]? =
        some { object := o,
               data := ComponentData.transform
                 { t with
                   position :=
                     Vector3.add t.position
                       { x := p1.speed * B.cos 0 * 1, y := 0, z := -p1.speed * B.sin 0 * 1 } } } ∧
      Vector3.add t.position
          { x := p1.speed * B.cos 0 * 1, y := 0, z := -p1.speed * B.sin 0 * 1 } =
        Vector3.add t.position { x := p1.speed, y := 0, z := 0 } ∧
      (p.speed = 10 → p.acceleration_Rate = 0 → p1.speed = 10) := by
  have hlt : j < obj.components.length := by
    rcases Nat.lt_or_ge j obj.components.length with h | h
    · exact h
    · rw [List.getElem?_eq_none h] at ht
      cases ht
  have hh0 : approach p.object_Heading p.turning_Rate 1 t.position.y = 0 := by
    rw [hh, hy]
    simp [approach]
  refine ⟨_, _, PhysicsComponent_tick_eq B 1 p obj j o t hj ht, ?_, ?_, ?_⟩
  · simp only [hh0, List.getElem?_set_self hlt, Vector3.add]
    simp [hy]
  · simp [Vector3.add, hcos, hsin]
  · intro hs ha
    simp [approach, hs, ha]

/-- Witness of the amended C9 over the reals with the real `cos` and `sin`: the fresh
entity `Entity()`, `speed = 10`, `acceleration_Rate = 0`. -/
theorem position_update_heading_zero_witness :
    ∃ p1 obj1,
      PhysicsComponent.tick
          ({ cos := Real.cos, sin := Real.sin, RotateXYZ := fun m _ _ _ => m } : Backend ℝ Unit) 1
          { velocity := { x := 0, y := 0, z := 0 }, object_Heading := 0, object_Speed := 10,
            speed := 10, acceleration_Rate := 0, turning_Rate := 1 / 10, max_Speed := 10 }
          (Entity.ctor 1) = Except.ok (p1, obj1) ∧
        obj1.components[0]? =
          some { object := 1,
                 data := ComponentData.transform
                   { (TransformComponent.init { x := 0, y := 0, z := 0 } Quaternion.Identity :
                       TransformComponent ℝ) with
                     position :=
                       Vector3.add { x := 0, y := 0, z := 0 }
                         { x := p1.speed * Real.cos 0 * 1, y := 0,
                           z := -p1.speed * Real.sin 0 * 1 } } } ∧
        Vector3.add ({ x := 0, y := 0, z := 0 } : Vector3 ℝ)
            { x := p1.speed * Real.cos 0 * 1, y := 0, z := -p1.speed * Real.sin 0 * 1 } =
          Vector3.add ({ x := 0, y := 0, z := 0 } : Vector3 ℝ) { x := p1.speed, y := 0, z := 0 } ∧
        ((10 : ℝ) = 10 → (0 : ℝ) = 0 → p1.speed = 10) :=
  position_update_heading_zero
    ({ cos := Real.cos, sin := Real.sin, RotateXYZ := fun m _ _ _ => m } : Backend ℝ Unit)
    { velocity := { x := 0, y := 0, z := 0 }, object_Heading := 0, object_Speed := 10,
      speed := 10, acceleration_Rate := 0, turning_Rate := 1 / 10, max_Speed := 10 }
    (Entity.ctor 1) 0 1
    (TransformComponent.init { x := 0, y := 0, z := 0 } Quaternion.Identity)
    Real.cos_zero Real.sin_zero rfl rfl rfl rfl

/-- C10 (velocity).  On an entity with a Transform, `tick(dt)` returns and the stored
velocity is `(s * cos h, 0, -s * sin h)`, where `s` is the speed after this tick's speed
step and `h` the heading (the value `transform.y` that `tick` steps toward
`object_Heading`) after this tick's heading step, as found in the Transform after the
tick; in particular the y component of the velocity is 0. -/
theorem velocity_after_tick {F M : Type} [LinearOrderedField F] (B : Backend F M) (dt : F)
    (p : PhysicsComponent F) (obj : Entity F M)
    (h : ∃ c ∈ obj.components, c.kind = Kind.TransformComponent) :
    ∃ j o t p1 obj1 t1,
      obj.GetComponent Kind.TransformComponent = Except.ok (some j) ∧
      obj.components[j]? = some { object := o, data := ComponentData.transform t } ∧
      PhysicsComponent.tick B dt p obj = Except.ok (p1, obj1) ∧
      obj1.components[j]? = some { object := o, data := ComponentData.transform t1 } ∧
      p1.speed = approach 0 p.acceleration_Rate dt p.speed ∧
      t1.position.y = approach p.object_Heading p.turning_Rate dt t.position.y ∧
      p1.velocity =
        { x := p1.speed * B.cos t1.position.y, y := 0,
          z := -(p1.speed * B.sin t1.position.y) } ∧
      p1.velocity.y = 0 := by
  obtain ⟨j, hj⟩ := GetComponent_Transform_of_mem obj h
  obtain ⟨o, t, ht⟩ := GetComponent_Transform_some obj j hj
  have hlt : j < obj.components.length := by
    rcases Nat.lt_or_ge j obj.components.length with h | h
    · exact h
    · rw [List.getElem?_eq_none h] at ht
      cases ht
  refine ⟨j, o, t, _, _,
    { t with
      position :=
        { x := t.position.x +
            approach 0 p.acceleration_Rate dt p.speed *
              B.cos (approach p.object_Heading p.turning_Rate dt t.position.y) * dt,
          y := approach p.object_Heading p.turning_Rate dt t.position.y + 0 * dt,
          z := t.position.z +
            -approach 0 p.acceleration_Rate dt p.speed *
              B.sin (approach p.object_Heading p.turning_Rate dt t.position.y) * dt } },
    hj, ht, PhysicsComponent_tick_eq B dt p obj j o t hj ht, ?_, rfl, ?_, ?_, rfl⟩
  · simp only [List.getElem?_set_self hlt]
  · simp
  · simp


/-- Witness of C10 on `plane1`, whose component at index 0 is a Transform. -/
theorem velocity_after_tick_witness :
    ∃ j o t p1 obj1 t1,
      (plane1 1 { transform := () } : Entity ℚ Unit).GetComponent Kind.TransformComponent =
        Except.ok (some j) ∧
      (plane1 1 { transform := () } : Entity ℚ Unit).components[j]? =
        some { object := o, data := ComponentData.transform t } ∧
      PhysicsComponent.tick exampleBackend (1 / 60)
          { velocity := { x := 0, y := 0, z := 0 }, object_Heading := 60, object_Speed := 20,
            speed := 3, acceleration_Rate := 1 / 10, turning_Rate := 1 / 10, max_Speed := 10 }
          (plane1 1 { transform := () }) = Except.ok (p1, obj1) ∧
      obj1.components[j]? = some { object := o, data := ComponentData.transform t1 } ∧
      p1.speed = approach 0 (1 / 10) (1 / 60) 3 ∧
      t1.position.y = approach 60 (1 / 10) (1 / 60) t.position.y ∧
      p1.velocity =
        { x := p1.speed * exampleBackend.cos t1.position.y, y := 0,
          z := -(p1.speed * exampleBackend.sin t1.position.y) } ∧
      p1.velocity.y = 0 :=
  velocity_after_tick exampleBackend (1 / 60)
    { velocity := { x := 0, y := 0, z := 0 }, object_Heading := 60, object_Speed := 20,
      speed := 3, acceleration_Rate := 1 / 10, turning_Rate := 1 / 10, max_Speed := 10 }
    (plane1 1 { transform := () })
    ⟨construct 1 Args.transform, by simp [plane1, (build_components _ _).1], rfl⟩

/-! ## Heading, missing siblings, rendering -/

/-- C11 (position step), evaluated where the code departs from it.  `plane1` after the
Leftward callback has fired once has `object_Heading = 60`; its Transform is at
(0, 0, 0) and its speed is 0.  One `tick(1)` computes the velocity (0, 0, 0), so the
position should stay (0, 0, 0) with its y coordinate unchanged; the code leaves it at
(0, 0.1, 0), because the heading step of lines 164-167 is applied to `position.y`
(`transform` is bound to the Transform's `position`), and the member `heading` of the
Transform is left at 0. -/
theorem heading_step_moves_position :
    ∃ p1 obj1 t1,
      (plane1 1 { transform := () } : Entity ℚ Unit).components[0]? =
        some { object := 1,
               data := ComponentData.transform
                 (TransformComponent.init { x := 0, y := 0, z := 0 } Quaternion.Identity) } ∧
      PhysicsComponent.tick exampleBackend 1
          { velocity := { x := 0, y := 0, z := 0 }, object_Heading := 60, object_Speed := 0,
            speed := 0, acceleration_Rate := 1 / 10, turning_Rate := 1 / 10, max_Speed := 10 }
          (plane1 1 { transform := () }) = Except.ok (p1, obj1) ∧
      obj1.components[0]? = some { object := 1, data := ComponentData.transform t1 } ∧
      p1.velocity = { x := 0, y := 0, z := 0 } ∧
      t1.position = ({ x := 0, y := 1 / 10, z := 0 } : Vector3 ℚ) ∧
      t1.position ≠ Vector3.add ({ x := 0, y := 0, z := 0 } : Vector3 ℚ) (p1.velocity.scale 1) ∧
      t1.heading = 0 := by
  refine ⟨_, _, TransformComponent.init { x := 0, y := 1 / 10, z := 0 } Quaternion.Identity,
    rfl, PhysicsComponent_tick_eq _ 1 _ _ 0 1 _ rfl rfl, ?_, ?_, rfl, ?_, rfl⟩
  · simp only [plane1, Entity.build, Entity.ctor, Entity.AddComponent, construct,
      TransformComponent.init, approach, exampleBackend, List.foldl]
    norm_num
  · simp only [approach, exampleBackend]
    norm_num
  · simp only [TransformComponent.init, Vector3.add, Vector3.scale, approach, exampleBackend]
    norm_num

/-- On a non-empty entity without a Transform the optional overload returns `nullopt`. -/
theorem GetComponent_Transform_none {F M : Type} (obj : Entity F M)
    (hno : ∀ c ∈ obj.components, c.kind ≠ Kind.TransformComponent)
    (hne : obj.components ≠ []) :
    obj.GetComponent Kind.TransformComponent = Except.ok none := by
  rw [GetComponent_eq_GetComponentPtr obj _ (Or.inl hne)]
  congr 1
  rw [(GetComponentPtr_spec obj _).2]
  intro c hc
  cases h : c.dynamic_cast Kind.TransformComponent with
  | false => rfl
  | true => exact absurd ((dynamic_cast_variant _ c (by decide)).1 h) (hno c hc)

/-- C12 (missing Transform).  On an entity with no `TransformComponent` among its
components (and at least one component, the one being ticked),
`PhysicsComponent::tick(dt)` returns leaving the component (speed and velocity included)
and the whole entity as they were, and `RenderingComponent::tick(dt)` returns leaving
the component (its model included) as it was and the list of draw calls unchanged;
neither call faults. -/
theorem tick_without_Transform_is_noop {F M : Type} [LinearOrderedField F]
    (B : Backend F M) (dt : F) (obj : Entity F M) (p : PhysicsComponent F)
    (r : RenderingComponent M) (draws : List M)
    (hno : ∀ c ∈ obj.components, c.kind ≠ Kind.TransformComponent)
    (hne : obj.components ≠ []) :
    PhysicsComponent.tick B dt p obj = Except.ok (p, obj) ∧
      RenderingComponent.tick B dt r obj draws = Except.ok (r, draws) := by
  have h := GetComponent_Transform_none obj hno hne
  constructor
  · unfold PhysicsComponent.tick
    rw [h]
  · unfold RenderingComponent.tick
    rw [h]

/-- C13 (setup without Physics), evaluated where the code departs from it.  On
`Entity()` with an `InputComponent` added and no `PhysicsComponent`, the lookup in
`InputComponent::setup` returns `nullopt`, and `setup` does not return as a no-op: it
evaluates `physicsRef->get()` on the empty optional. -/
theorem InputComponent_setup_without_Physics_dereferences_empty :
    (Entity.build 1 [Args.input 0] : Entity ℚ Unit).GetComponentPtr Kind.PhysicsComponent = none ∧
      (Entity.build 1 [Args.input 0] : Entity ℚ Unit).GetComponent Kind.PhysicsComponent =
        Except.ok none ∧
      InputComponent.setup { entityNumber := 0, inputManager := [] }
          (Entity.build 1 [Args.input 0] : Entity ℚ Unit) = Except.error Fault.nullDeref :=
  ⟨rfl, rfl, rfl⟩

/-- C14 (render restores the model transform).  For a `RenderingComponent` with a model,
`tick(dt)` returns with the component, hence the model transform, equal to what it was
before the call, and so does a second tick right after it.  When the lookup finds a
Transform, each of the two ticks adds exactly one draw call, made with the composed
transform `RotateXYZ(transform, position.x, position.y, position.z)` in place; when it
finds none, no draw call is made. -/
theorem RenderingComponent_tick_restores_transform {F M : Type} (B : Backend F M) (dt : F)
    (r : RenderingComponent M) (m : Model M) (obj : Entity F M) (draws : List M)
    (hm : r.modelPtr = some m) (hne : obj.components ≠ []) :
    ∃ draws1 draws2,
      RenderingComponent.tick B dt r obj draws = Except.ok (r, draws1) ∧
      RenderingComponent.tick B dt r obj draws1 = Except.ok (r, draws2) ∧
      (∀ j o t, obj.GetComponent Kind.TransformComponent = Except.ok (some j) →
        obj.components[j]? = some { object := o, data := ComponentData.transform t } →
        draws1 =
            draws ++ [B.RotateXYZ m.transform t.position.x t.position.y t.position.z] ∧
          draws2 =
            draws1 ++ [B.RotateXYZ m.transform t.position.x t.position.y t.position.z]) ∧
      (obj.GetComponent Kind.TransformComponent = Except.ok none →
        draws1 = draws ∧ draws2 = draws) := by
  have key : ∀ ds : List M, ∃ ds1,
      RenderingComponent.tick B dt r obj ds = Except.ok (r, ds1) ∧
      (∀ j o t, obj.GetComponent Kind.TransformComponent = Except.ok (some j) →
        obj.components[j]? = some { object := o, data := ComponentData.transform t } →
        ds1 = ds ++ [B.RotateXYZ m.transform t.position.x t.position.y t.position.z]) ∧
      (obj.GetComponent Kind.TransformComponent = Except.ok none → ds1 = ds) := by
    intro ds
    obtain ⟨mp⟩ := r
    simp only at hm
    subst hm
    unfold RenderingComponent.tick
    rw [GetComponent_eq_GetComponentPtr obj _ (Or.inl hne)]
    cases obj.GetComponentPtr Kind.TransformComponent with
    | none => exact ⟨ds, rfl, fun j o t h => (by cases h), fun _ => rfl⟩
    | some j =>
      simp only []
      split
      · rename_i o t hj
        refine ⟨_, rfl, ?_, fun h => by cases h⟩
        intro j1 o1 t1 h1 h2
        simp only [Except.ok.injEq, Option.some.injEq] at h1
        subst h1
        rw [hj] at h2
        simp only [Option.some.injEq, Component.mk.injEq, ComponentData.transform.injEq] at h2
        rw [h2.2]
      · rename_i hnot
        refine ⟨ds, rfl, ?_, fun h => by cases h⟩
        intro j1 o1 t1 h1 h2
        simp only [Except.ok.injEq, Option.some.injEq] at h1
        subst h1
        exact absurd h2 (hnot o1 t1)
  obtain ⟨d1, h1, h2, h3⟩ := key draws
  obtain ⟨d2, h4, h5, h6⟩ := key d1
  exact ⟨d1, d2, h1, h4, fun j o t hj ht => ⟨h2 j o t hj ht, h5 j o t hj ht⟩,
    fun hn => ⟨h3 hn, (h6 hn).trans (h3 hn)⟩⟩


/-! ## Input callbacks -/

/-- C16 (select-next), evaluated where the code departs from it.  The roster `entities`
of `main` holds R = 2 entities.  With the selected index at 1, the Tabward callback
yields `(1 + 1) % 10 = 2`, which is not a position in the roster, where the claim asks
for `(1 + 1) mod 2 = 0`: the modulus is the literal 10, not the roster size. -/
theorem Tabward_leaves_roster_of_main :
    (entities (F := ℚ) { transform := () } { transform := () } Quaternion.Identity).length = 2 ∧
      (Callback.fire Callback.Tabward 1 (Entity.build 1 [Args.input 1] : Entity ℚ Unit)).map
          (fun e => e.components[1]?.map Component.data) =
        Except.ok (some (ComponentData.input { entityNumber := 2, inputManager := [] })) ∧
      ¬ (2 : Int) <
          (entities (F := ℚ) { transform := () } { transform := () } Quaternion.Identity).length ∧
      ((1 : Int) + 1) % 2 = 0 := by
  refine ⟨rfl, rfl, by decide, by decide⟩

/-- C17 (no dependence on the member `object_Speed`).  Two `PhysicsComponent` states
that differ only in the member `object_Speed` (`p`, and `p` with `object_Speed := x`)
give, on the same entity and `dt`, the same outcome of `tick` up to that member: the
same fault, or results with the same speed, the same velocity and the same entity
(Transform position included).  The member `object_Speed` itself comes out of `tick`
as it went in. -/
theorem PhysicsComponent_tick_independent_of_object_Speed {F M : Type}
    [LinearOrderedField F] (B : Backend F M) (dt : F) (p : PhysicsComponent F) (x : F)
    (obj : Entity F M) :
    PhysicsComponent.tick B dt { p with object_Speed := x } obj =
        (PhysicsComponent.tick B dt p obj).map
          (fun r => ({ r.1 with object_Speed := x }, r.2)) ∧
      (PhysicsComponent.tick B dt p obj).map (fun r => r.1.object_Speed) =
        (PhysicsComponent.tick B dt p obj).map (fun _ => p.object_Speed) := by
  unfold PhysicsComponent.tick
  cases obj.GetComponent Kind.TransformComponent with
  | error f => exact ⟨rfl, rfl⟩
  | ok r =>
    cases r with
    | none => exact ⟨rfl, rfl⟩
    | some j =>
      simp only []
      split <;> exact ⟨rfl, rfl⟩

/-- On an entity with a Transform, `tick` returns, with the speed and the heading value
stepped by `approach`. -/
theorem PhysicsComponent_tick_steps {F M : Type} [LinearOrderedField F] (B : Backend F M)
    (dt : F) (p : PhysicsComponent F) (obj : Entity F M)
    (h : ∃ c ∈ obj.components, c.kind = Kind.TransformComponent) :
    ∃ j o t p1 obj1 t1,
      obj.GetComponent Kind.TransformComponent = Except.ok (some j) ∧
      obj.components[j]? = some { object := o, data := ComponentData.transform t } ∧
      PhysicsComponent.tick B dt p obj = Except.ok (p1, obj1) ∧
      obj1.components[j]? = some { object := o, data := ComponentData.transform t1 } ∧
      p1.speed = approach 0 p.acceleration_Rate dt p.speed ∧
      t1.position.y = approach p.object_Heading p.turning_Rate dt t.position.y := by
  obtain ⟨j, hj⟩ := GetComponent_Transform_of_mem obj h
  obtain ⟨o, t, ht⟩ := GetComponent_Transform_some obj j hj
  have hlt : j < obj.components.length := by
    rcases Nat.lt_or_ge j obj.components.length with h | h
    · exact h
    · rw [List.getElem?_eq_none h] at ht
      cases ht
  refine ⟨j, o, t, _, _,
    { t with
      position :=
        { x := t.position.x +
            approach 0 p.acceleration_Rate dt p.speed *
              B.cos (approach p.object_Heading p.turning_Rate dt t.position.y) * dt,
          y := approach p.object_Heading p.turning_Rate dt t.position.y + 0 * dt,
          z := t.position.z +
            -approach 0 p.acceleration_Rate dt p.speed *
              B.sin (approach p.object_Heading p.turning_Rate dt t.position.y) * dt } },
    hj, ht, PhysicsComponent_tick_eq B dt p obj j o t hj ht, ?_, rfl, ?_⟩
  · simp only [List.getElem?_set_self hlt]
  · simp

/-- C18 (asymmetric step).  On an entity with a Transform, `tick(dt)` sets the speed to
`approach 0 acceleration_Rate dt speed` and the heading value to
`approach object_Heading turning_Rate dt heading`, where `approach t rate d v` is the
outcome of the two consecutive comparisons with step `s = rate * d`.  For `v < t` it is
`v + s` when `v + s <= t` and `v` when `v + s > t`, so it never exceeds `t`; for `v > t`
it is `v - s`, which is below `t` exactly when `s > v - t`; for `v = t` it is `v`. -/
theorem approach_is_asymmetric {F M : Type} [LinearOrderedField F] (B : Backend F M)
    (dt : F) (p : PhysicsComponent F) (obj : Entity F M) (t rate d v : F)
    (h : ∃ c ∈ obj.components, c.kind = Kind.TransformComponent) :
    (∃ j o tr p1 obj1 tr1,
      obj.GetComponent Kind.TransformComponent = Except.ok (some j) ∧
      obj.components[j]? = some { object := o, data := ComponentData.transform tr } ∧
      PhysicsComponent.tick B dt p obj = Except.ok (p1, obj1) ∧
      obj1.components[j]? = some { object := o, data := ComponentData.transform tr1 } ∧
      p1.speed = approach 0 p.acceleration_Rate dt p.speed ∧
      tr1.position.y = approach p.object_Heading p.turning_Rate dt tr.position.y) ∧
    (v < t → v + rate * d ≤ t → approach t rate d v = v + rate * d) ∧
    (v < t → t < v + rate * d → approach t rate d v = v) ∧
    (v < t → approach t rate d v ≤ t) ∧
    (t < v → approach t rate d v = v - rate * d) ∧
    (t < v → (approach t rate d v < t ↔ v - t < rate * d)) ∧
    (v = t → approach t rate d v = v) := by
  refine ⟨PhysicsComponent_tick_steps B dt p obj h, ?_, ?_, ?_, ?_, ?_, ?_⟩
  · intro h1 h2
    simp [approach, h1, not_lt.2 h2]
  · intro h1 h2
    simp [approach, h1, h2]
  · intro h1
    by_cases h2 : t < v + rate * d
    · simp only [approach, gt_iff_lt, h1, if_true, h2]
      rw [add_sub_cancel_right]
      exact le_of_lt h1
    · simp only [approach, gt_iff_lt, h1, if_true, h2, if_false]
      exact not_lt.1 h2
  · intro h1
    simp [approach, h1, not_lt.2 (le_of_lt h1)]
  · intro h1
    simp only [approach, gt_iff_lt, not_lt.2 (le_of_lt h1), if_false, h1, if_true]
    constructor <;> intro h2 <;> linarith
  · intro h1
    subst h1
    simp [approach]

/-- C19 (unchecked `components[0]`).  For `Entity()` followed by any sequence of
`AddComponent` calls, and for the destination of a move of such an entity, the vector
is not empty, so the read of `components[0]` in the optional overload of
`GetComponent<TransformComponent>` is in bounds.  The source of the move is left with
an empty vector, on which that read is out of bounds; in general the read is out of
bounds exactly when the vector is empty. -/
theorem components_zero_in_bounds {F M : Type} [LinearOrderedField F] (this dst : Nat)
    (as : List (Args F M)) :
    0 < (Entity.build this as).components.length ∧
      (Entity.build this as).GetComponent Kind.TransformComponent ≠
        Except.error Fault.outOfBounds ∧
      0 < (Entity.moveCtor dst (Entity.build this as)).1.components.length ∧
      (Entity.moveCtor dst (Entity.build this as)).1.GetComponent Kind.TransformComponent ≠
        Except.error Fault.outOfBounds ∧
      (Entity.moveCtor dst (Entity.build this as)).2.components.length = 0 ∧
      (Entity.moveCtor dst (Entity.build this as)).2.GetComponent Kind.TransformComponent =
        Except.error Fault.outOfBounds ∧
      ∀ e : Entity F M,
        e.GetComponent Kind.TransformComponent = Except.error Fault.outOfBounds ↔
          e.components.length = 0 := by
  have key : ∀ e : Entity F M,
      e.GetComponent Kind.TransformComponent = Except.error Fault.outOfBounds ↔
        e.components.length = 0 := by
    intro e
    unfold Entity.GetComponent
    cases e.components with
    | nil => simp
    | cons c cs =>
      simp only [if_true, List.length_cons]
      split <;> simp
  have hlen : 0 < (Entity.build this as).components.length := by
    rw [(build_components this as).1]
    simp
  have hlen1 : 0 < (Entity.moveCtor dst (Entity.build this as)).1.components.length := by
    simpa [Entity.moveCtor] using hlen
  refine ⟨hlen, ?_, hlen1, ?_, rfl, rfl, key⟩
  · intro h
    have := (key _).1 h
    omega
  · intro h
    have := (key _).1 h
    omega


/-! ## The speed bound -/

theorem approach_zero {F : Type} [LinearOrderedField F] (rate dt : F) :
    approach 0 rate dt 0 = 0 := by
  simp [approach]

theorem forall_mem_set {α : Type} (Q : α → Prop) (cs : List α) (j : Nat) (d : α)
    (h : ∀ c ∈ cs, Q c) (hd : Q d) : ∀ c ∈ cs.set j d, Q c := by
  intro c hc
  rcases List.mem_or_eq_of_mem_set hc with hc | rfl
  · exact h c hc
  · exact hd

theorem map_kind_set {F M : Type} (cs : List (Component F M)) (j : Nat)
    (c d : Component F M) (hc : cs[j]? = some c) (hk : d.kind = c.kind) :
    (cs.set j d).map Component.kind = cs.map Component.kind := by
  apply List.ext_getElem?
  intro n
  rw [List.getElem?_map, List.getElem?_map, List.getElem?_set]
  by_cases hn : j = n
  · subst hn
    have hlt : j < cs.length := by
      rcases Nat.lt_or_ge j cs.length with h | h
      · exact h
      · rw [List.getElem?_eq_none h] at hc
        cases hc
    simp [hlt, hc, hk]
  · simp [hn]

/-- With a Transform or without, a tick on a non-empty entity returns; a speed of 0
stays 0, `max_Speed` is kept, and the entity changes at most in one Transform. -/
theorem PhysicsComponent_tick_at_rest {F M : Type} [LinearOrderedField F] (B : Backend F M)
    (dt : F) (p : PhysicsComponent F) (obj : Entity F M) (hne : obj.components ≠ [])
    (hp : p.speed = 0) :
    ∃ p1 obj1, PhysicsComponent.tick B dt p obj = Except.ok (p1, obj1) ∧
      p1.speed = 0 ∧ p1.max_Speed = p.max_Speed ∧ obj1.addr = obj.addr ∧
      (obj1.components = obj.components ∨
        ∃ j o t t1,
          obj.components[j]? = some { object := o, data := ComponentData.transform t } ∧
          obj1.components =
            obj.components.set j { object := o, data := ComponentData.transform t1 }) := by
  rcases hget : obj.GetComponent Kind.TransformComponent with f | r
  · rw [GetComponent_eq_GetComponentPtr obj _ (Or.inl hne)] at hget
    cases hget
  · cases r with
    | none =>
      refine ⟨p, obj, ?_, hp, rfl, rfl, Or.inl rfl⟩
      unfold PhysicsComponent.tick
      rw [hget]
    | some j =>
      obtain ⟨o, t, ht⟩ := GetComponent_Transform_some obj j hget
      refine ⟨_, _, PhysicsComponent_tick_eq B dt p obj j o t hget ht, ?_, rfl, rfl,
        Or.inr ⟨j, o, t, _, ht, rfl⟩⟩
      simp only [hp]
      exact approach_zero _ _

theorem Component_tick_at_rest {F M : Type} [LinearOrderedField F] (B : Backend F M) (dt : F)
    (i : Nat) (s : Frame F M) (hi : i < s.entity.components.length)
    (hwf : s.entity.WellFormed = true) (hrest : s.entity.PhysicsAtRest) :
    ∃ s1, Component.tick B dt i s = Except.ok s1 ∧
      s1.entity.WellFormed = true ∧ s1.entity.PhysicsAtRest ∧
      s1.entity.components.map Component.kind = s.entity.components.map Component.kind := by
  obtain ⟨s1, h1, _, hwf1⟩ := Component_tick_ok B dt i s hi hwf
  refine ⟨s1, h1, hwf1, ?_⟩
  have hne : s.entity.components ≠ [] := by
    intro h
    rw [h] at hi
    exact absurd hi (Nat.not_lt_zero i)
  have hget : s.entity.components[i]? = some (s.entity.components[i]) := by
    simp [hi]
  have hmem : s.entity.components[i] ∈ s.entity.components := List.getElem?_mem hget
  unfold Component.tick at h1
  rw [hget] at h1
  simp only [] at h1
  generalize s.entity.components[i] = c at hget hmem h1
  obtain ⟨o, d⟩ := c
  cases d with
  | base => cases h1; exact ⟨hrest, rfl⟩
  | transform t => cases h1; exact ⟨hrest, rfl⟩
  | input n => cases h1; exact ⟨hrest, rfl⟩
  | rendering r =>
    simp only at h1
    split at h1
    · split at h1
      · cases h1
      · cases h1
        refine ⟨?_, map_kind_set _ _ _ _ hget rfl⟩
        exact forall_mem_set _ _ _ _ hrest (fun p hp => by cases hp)
    · cases h1
  | physics p =>
    simp only at h1
    split at h1
    · obtain ⟨p1, obj1, h2, h3, h4, _, h5⟩ :=
        PhysicsComponent_tick_at_rest B dt p s.entity hne (hrest _ hmem p rfl).1
      rw [h2] at h1
      simp only [Except.ok.injEq] at h1
      subst h1
      have hmax := (hrest _ hmem p rfl).2
      have hnew : ∀ q, (ComponentData.physics p1 : ComponentData F M) = ComponentData.physics q →
          q.speed = 0 ∧ 0 ≤ q.max_Speed := by
        intro q hq
        cases hq
        exact ⟨h3, by rw [h4]; exact hmax⟩
      rcases h5 with h5 | ⟨j, o1, t, t1, h5, h6⟩
      · simp only [h5]
        exact ⟨forall_mem_set _ _ _ _ hrest hnew,
          map_kind_set _ _ _ { object := o, data := ComponentData.physics p1 } hget rfl⟩
      · simp only [h6]
        have hrest1 : ∀ c ∈ s.entity.components.set j
            { object := o1, data := ComponentData.transform t1 },
            ∀ q, c.data = ComponentData.physics q → q.speed = 0 ∧ 0 ≤ q.max_Speed :=
          forall_mem_set _ _ _ _ hrest (fun q hq => by cases hq)
        have hk1 := map_kind_set s.entity.components j _
          { object := o1, data := ComponentData.transform t1 } h5 rfl
        have hgeti : (s.entity.components.set j
            { object := o1, data := ComponentData.transform t1 })[i]? =
            some { object := o, data := ComponentData.physics p } := by
          rw [List.getElem?_set]
          by_cases hji : j = i
          · subst hji
            rw [hget] at h5
            cases h5
          · simp [hji, hget]
        refine ⟨forall_mem_set _ _ _ _ hrest1 hnew, ?_⟩
        rw [map_kind_set _ i _ { object := o, data := ComponentData.physics p1 } hgeti rfl, hk1]
    · cases h1


theorem tickLoop_at_rest {F M : Type} [LinearOrderedField F] (B : Backend F M) (dt : F)
    (is : List Nat) (s : Frame F M) (his : ∀ i ∈ is, i < s.entity.components.length)
    (hwf : s.entity.WellFormed = true) (hrest : s.entity.PhysicsAtRest) :
    ∃ s1, Entity.tickLoop B dt is s = Except.ok s1 ∧
      s1.entity.WellFormed = true ∧ s1.entity.PhysicsAtRest ∧
      s1.entity.components.map Component.kind = s.entity.components.map Component.kind := by
  induction is generalizing s with
  | nil => exact ⟨s, rfl, hwf, hrest, rfl⟩
  | cons i is ih =>
    obtain ⟨s2, h1, h2, h3, h4⟩ :=
      Component_tick_at_rest B dt i { s with calls := s.calls ++ [(i, dt)] }
        (his i (List.mem_cons_self i is)) hwf hrest
    have hlen : s2.entity.components.length = s.entity.components.length := by
      have := congrArg List.length h4
      simpa using this
    obtain ⟨s3, h5, h6, h7, h8⟩ :=
      ih s2 (fun k hk => by rw [hlen]; exact his k (List.mem_cons_of_mem i hk)) h2 h3
    refine ⟨s3, ?_, h6, h7, h8.trans h4⟩
    unfold Entity.tickLoop Entity.tickStep
    rw [h1]
    exact h5

theorem updatePhysics_at_rest {F M : Type} [LinearOrderedField F] (e : Entity F M) (k : Nat)
    (f : PhysicsComponent F → PhysicsComponent F)
    (hf : ∀ p, (f p).speed = p.speed ∧ (f p).max_Speed = p.max_Speed)
    (hk : (e.components.map Component.kind)[k]? = some Kind.PhysicsComponent)
    (hwf : e.WellFormed = true) (hrest : e.PhysicsAtRest) :
    ∃ e1, e.updatePhysics k f = Except.ok e1 ∧
      e1.WellFormed = true ∧ e1.PhysicsAtRest ∧
      e1.components.map Component.kind = e.components.map Component.kind := by
  rw [List.getElem?_map] at hk
  cases hc : e.components[k]? with
  | none => simp [hc] at hk
  | some c =>
    obtain ⟨o, d⟩ := c
    rw [hc] at hk
    cases d <;> simp [Component.kind] at hk
    rename_i p
    have hmem := List.getElem?_mem hc
    have hwf1 := (WellFormed_iff e).1 hwf
    refine ⟨{ e with
        components :=
          e.components.set k { object := o, data := ComponentData.physics (f p) } },
      ?_, ?_, ?_, ?_⟩
    · unfold Entity.updatePhysics
      rw [hc]
    · rw [WellFormed_iff]
      exact owned_set _ _ _ _ hwf1 ⟨(hwf1 _ hmem).1, rfl⟩
    · refine forall_mem_set _ _ _ _ hrest ?_
      intro q hq
      cases hq
      have h0 := hrest _ hmem p rfl
      exact ⟨by rw [(hf p).1]; exact h0.1, by rw [(hf p).2]; exact h0.2⟩
    · exact map_kind_set _ _ _ { object := o, data := ComponentData.physics (f p) } hc rfl

theorem Step_run_at_rest {F M : Type} [LinearOrderedField F] (B : Backend F M) (st : Step F)
    (s : Frame F M) (hst : st.DrivesPhysics (s.entity.components.map Component.kind))
    (hwf : s.entity.WellFormed = true) (hrest : s.entity.PhysicsAtRest) :
    ∃ s1, st.run B s = Except.ok s1 ∧
      s1.entity.WellFormed = true ∧ s1.entity.PhysicsAtRest ∧
      s1.entity.components.map Component.kind = s.entity.components.map Component.kind := by
  cases st with
  | tick dt =>
    exact tickLoop_at_rest B dt _ s (fun i hi => List.mem_range.1 hi) hwf hrest
  | tickOne i dt =>
    exact Component_tick_at_rest B dt i { s with calls := s.calls ++ [(i, dt)] }
      (by simpa [Step.DrivesPhysics] using hst) hwf hrest
  | press self cb =>
    cases cb with
    | Tabward => exact absurd hst id
    | Forward k =>
      obtain ⟨e1, h1, h2, h3, h4⟩ := updatePhysics_at_rest s.entity k
        (fun p => { p with object_Speed := p.object_Speed + 20 }) (fun _ => ⟨rfl, rfl⟩) hst hwf hrest
      exact ⟨{ s with entity := e1 }, by simp [Step.run, Callback.fire, h1], h2, h3, h4⟩
    | Backward k =>
      obtain ⟨e1, h1, h2, h3, h4⟩ := updatePhysics_at_rest s.entity k
        (fun p => { p with object_Speed := p.object_Speed - 20 }) (fun _ => ⟨rfl, rfl⟩) hst hwf hrest
      exact ⟨{ s with entity := e1 }, by simp [Step.run, Callback.fire, h1], h2, h3, h4⟩
    | Leftward k =>
      obtain ⟨e1, h1, h2, h3, h4⟩ := updatePhysics_at_rest s.entity k
        (fun p => { p with object_Heading := p.object_Heading + 60 }) (fun _ => ⟨rfl, rfl⟩) hst hwf hrest
      exact ⟨{ s with entity := e1 }, by simp [Step.run, Callback.fire, h1], h2, h3, h4⟩
    | Rightward k =>
      obtain ⟨e1, h1, h2, h3, h4⟩ := updatePhysics_at_rest s.entity k
        (fun p => { p with object_Heading := p.object_Heading - 60 }) (fun _ => ⟨rfl, rfl⟩) hst hwf hrest
      exact ⟨{ s with entity := e1 }, by simp [Step.run, Callback.fire, h1], h2, h3, h4⟩

theorem runSteps_at_rest {F M : Type} [LinearOrderedField F] (B : Backend F M)
    (steps : List (Step F)) (s : Frame F M)
    (hsteps : ∀ st ∈ steps, st.DrivesPhysics (s.entity.components.map Component.kind))
    (hwf : s.entity.WellFormed = true) (hrest : s.entity.PhysicsAtRest) :
    ∃ s1, runSteps B steps s = Except.ok s1 ∧ s1.entity.PhysicsAtRest := by
  induction steps generalizing s with
  | nil => exact ⟨s, rfl, hrest⟩
  | cons st sts ih =>
    obtain ⟨s2, h1, h2, h3, h4⟩ :=
      Step_run_at_rest B st s (hsteps st (List.mem_cons_self st sts)) hwf hrest
    obtain ⟨s3, h5, h6⟩ :=
      ih s2 (fun x hx => by rw [h4]; exact hsteps x (List.mem_cons_of_mem st hx)) h2 h3
    refine ⟨s3, ?_, h6⟩
    unfold runSteps
    rw [h1]
    exact h5

/-- C15 (speed bound).  Start from an entity whose `PhysicsComponent`s are as
constructed (`speed = 0`, `max_Speed >= 0`), and run any finite sequence of `tick(dt)`
calls (of the entity or of single components, any `dt`) interleaved with the callbacks
that change `object_Speed` or
`object_Heading`.  Every initial part of the sequence (its first `n` steps, for every `n`)
returns, and after it every `PhysicsComponent` has `|speed| <= max_Speed`.  (The speed in fact never leaves 0: `tick`
steps it toward the local target 0, not toward `object_Speed`.) -/
theorem speed_stays_within_max_Speed {F M : Type} [LinearOrderedField F] (B : Backend F M)
    (steps : List (Step F)) (s : Frame F M)
    (hsteps : ∀ st ∈ steps, st.DrivesPhysics (s.entity.components.map Component.kind))
    (hwf : s.entity.WellFormed = true) (hrest : s.entity.PhysicsAtRest) (n : Nat) :
    ∃ s1, runSteps B (steps.take n) s = Except.ok s1 ∧ s1.entity.SpeedBounded := by
  obtain ⟨s1, h1, h2⟩ :=
    runSteps_at_rest B (steps.take n) s (fun st hst => hsteps st (List.mem_of_mem_take hst)) hwf
      hrest
  refine ⟨s1, h1, ?_⟩
  intro c hc p hp
  obtain ⟨h3, h4⟩ := h2 c hc p hp
  rw [h3, abs_zero]
  exact h4


/-- Witness of C12 on an entity that owns a Rendering and a Physics component only. -/
theorem tick_without_Transform_is_noop_witness :
    PhysicsComponent.tick exampleBackend (1 / 60)
        { velocity := { x := 0, y := 0, z := 0 }, object_Heading := 60, object_Speed := 20,
          speed := 3, acceleration_Rate := 1 / 10, turning_Rate := 1 / 10, max_Speed := 10 }
        { addr := 1,
          components :=
            [construct 1 (Args.rendering { transform := () }),
              construct 1 (Args.physics (1 / 10) (1 / 10) 10)] } =
      Except.ok
        ({ velocity := { x := 0, y := 0, z := 0 }, object_Heading := 60, object_Speed := 20,
           speed := 3, acceleration_Rate := 1 / 10, turning_Rate := 1 / 10, max_Speed := 10 },
         { addr := 1,
           components :=
             [construct 1 (Args.rendering { transform := () }),
               construct 1 (Args.physics (1 / 10) (1 / 10) 10)] }) ∧
    RenderingComponent.tick exampleBackend (1 / 60) { modelPtr := some { transform := () } }
        { addr := 1,
          components :=
            [construct 1 (Args.rendering { transform := () }),
              construct 1 (Args.physics (1 / 10) (1 / 10) 10)] } [] =
      Except.ok ({ modelPtr := some { transform := () } }, []) :=
  tick_without_Transform_is_noop exampleBackend (1 / 60)
    { addr := 1,
      components :=
        [construct 1 (Args.rendering { transform := () }),
          construct 1 (Args.physics (1 / 10) (1 / 10) 10)] }
    { velocity := { x := 0, y := 0, z := 0 }, object_Heading := 60, object_Speed := 20,
      speed := 3, acceleration_Rate := 1 / 10, turning_Rate := 1 / 10, max_Speed := 10 }
    { modelPtr := some { transform := () } } []
    (fun c hc => by
      simp only [List.mem_cons, List.mem_singleton, List.not_mem_nil, or_false] at hc
      rcases hc with rfl | rfl <;> decide)
    (by simp)


/-- Witness of C14 on `plane1` with no draw call made before. -/
theorem RenderingComponent_tick_restores_transform_witness :
    ∃ draws1 draws2,
      RenderingComponent.tick exampleBackend (1 / 60) { modelPtr := some { transform := () } }
          (plane1 1 { transform := () }) [] =
        Except.ok ({ modelPtr := some { transform := () } }, draws1) ∧
      RenderingComponent.tick exampleBackend (1 / 60) { modelPtr := some { transform := () } }
          (plane1 1 { transform := () }) draws1 =
        Except.ok ({ modelPtr := some { transform := () } }, draws2) ∧
      (∀ j o t,
        (plane1 1 { transform := () } : Entity ℚ Unit).GetComponent Kind.TransformComponent =
          Except.ok (some j) →
        (plane1 1 { transform := () } : Entity ℚ Unit).components[j]? =
          some { object := o, data := ComponentData.transform t } →
        draws1 =
            [] ++ [exampleBackend.RotateXYZ () t.position.x t.position.y t.position.z] ∧
          draws2 =
            draws1 ++ [exampleBackend.RotateXYZ () t.position.x t.position.y t.position.z]) ∧
      ((plane1 1 { transform := () } : Entity ℚ Unit).GetComponent Kind.TransformComponent =
          Except.ok none →
        draws1 = [] ∧ draws2 = []) :=
  RenderingComponent_tick_restores_transform exampleBackend (1 / 60)
    { modelPtr := some { transform := () } } { transform := () } (plane1 1 { transform := () })
    [] rfl (by simp [plane1, (build_components _ _).1])

/-- An entity built by `Entity()` and `AddComponent` calls has every `PhysicsComponent`
at speed 0, with the `max_Speed` it was given. -/
theorem build_PhysicsAtRest {F M : Type} [LinearOrderedField F] (this : Nat)
    (as : List (Args F M))
    (h : ∀ acc turn mx, Args.physics acc turn mx ∈ as → 0 ≤ mx) :
    (Entity.build this as).PhysicsAtRest := by
  intro c hc p hp
  rw [(build_components this as).1] at hc
  rcases List.mem_cons.1 hc with rfl | hc
  · cases hp
  · obtain ⟨a, ha, rfl⟩ := List.mem_map.1 hc
    cases a <;> simp only [construct] at hp <;> cases hp
    exact ⟨rfl, h _ _ _ ha⟩

/-- Witness of C15 on `plane1`: Forward, a tick of the entity, Leftward, a tick of the
Physics component, all four steps run. -/
theorem speed_stays_within_max_Speed_witness :
    ∃ s1,
      runSteps exampleBackend
          (([Step.press 1 (Callback.Forward 2), Step.tick (1 / 60),
              Step.press 1 (Callback.Leftward 2), Step.tickOne 2 (1 / 60)] :
              List (Step ℚ)).take 4)
          { entity := plane1 1 { transform := () }, calls := [], draws := [] } =
        Except.ok s1 ∧
      s1.entity.SpeedBounded :=
  speed_stays_within_max_Speed exampleBackend
    [Step.press 1 (Callback.Forward 2), Step.tick (1 / 60),
      Step.press 1 (Callback.Leftward 2), Step.tickOne 2 (1 / 60)]
    { entity := plane1 1 { transform := () }, calls := [], draws := [] }
    (fun st hst => by
      simp only [List.mem_cons, List.mem_singleton, List.not_mem_nil, or_false] at hst
      rcases hst with rfl | rfl | rfl | rfl
      · exact (rfl : ([Kind.TransformComponent, Kind.RenderingComponent,
          Kind.PhysicsComponent] : List Kind)[2]? = some Kind.PhysicsComponent)
      · trivial
      · exact (rfl : ([Kind.TransformComponent, Kind.RenderingComponent,
          Kind.PhysicsComponent] : List Kind)[2]? = some Kind.PhysicsComponent)
      · exact (by decide : 2 < ([Kind.TransformComponent, Kind.RenderingComponent,
          Kind.PhysicsComponent] : List Kind).length))
    rfl
    (build_PhysicsAtRest 1 _ (fun acc turn mx h => by
      simp only [List.mem_cons, List.mem_singleton, List.not_mem_nil, or_false] at h
      rcases h with h | h
      · cases h
      · cases h
        norm_num))
    4

/-- Witness of C18 on `plane1`, with target 60, rate 0.1, `dt = 1` and value 0. -/
theorem approach_is_asymmetric_witness :
    (∃ j o tr p1 obj1 tr1,
      (plane1 1 { transform := () } : Entity ℚ Unit).GetComponent Kind.TransformComponent =
        Except.ok (some j) ∧
      (plane1 1 { transform := () } : Entity ℚ Unit).components[j]? =
        some { object := o, data := ComponentData.transform tr } ∧
      PhysicsComponent.tick exampleBackend 1
          { velocity := { x := 0, y := 0, z := 0 }, object_Heading := 60, object_Speed := 20,
            speed := 3, acceleration_Rate := 1 / 10, turning_Rate := 1 / 10, max_Speed := 10 }
          (plane1 1 { transform := () }) = Except.ok (p1, obj1) ∧
      obj1.components[j]? = some { object := o, data := ComponentData.transform tr1 } ∧
      p1.speed = approach 0 (1 / 10) 1 3 ∧
      tr1.position.y = approach 60 (1 / 10) 1 tr.position.y) ∧
    ((0 : ℚ) < 60 → (0 : ℚ) + 1 / 10 * 1 ≤ 60 →
      approach 60 (1 / 10) 1 (0 : ℚ) = 0 + 1 / 10 * 1) ∧
    ((0 : ℚ) < 60 → (60 : ℚ) < 0 + 1 / 10 * 1 → approach 60 (1 / 10) 1 (0 : ℚ) = 0) ∧
    ((0 : ℚ) < 60 → approach 60 (1 / 10) 1 (0 : ℚ) ≤ 60) ∧
    ((60 : ℚ) < 0 → approach 60 (1 / 10) 1 (0 : ℚ) = 0 - 1 / 10 * 1) ∧
    ((60 : ℚ) < 0 → (approach 60 (1 / 10) 1 (0 : ℚ) < 60 ↔ (0 : ℚ) - 60 < 1 / 10 * 1)) ∧
    ((0 : ℚ) = 60 → approach 60 (1 / 10) 1 (0 : ℚ) = 0) :=
  approach_is_asymmetric exampleBackend 1
    { velocity := { x := 0, y := 0, z := 0 }, object_Heading := 60, object_Speed := 20,
      speed := 3, acceleration_Rate := 1 / 10, turning_Rate := 1 / 10, max_Speed := 10 }
    (plane1 1 { transform := () }) 60 (1 / 10) 1 0
    ⟨construct 1 Args.transform, by simp [plane1, (build_components _ _).1], rfl⟩



/-! ## Entity::tick, one call after the other -/

theorem build_WellFormed {F M : Type} [LinearOrderedField F] (this : Nat)
    (as : List (Args F M)) (h : Args.renderingNull ∉ as) :
    (Entity.build this as).WellFormed = true := by
  rw [WellFormed_iff, (build_components this as).1, (build_components this as).2]
  intro c hc
  rcases List.mem_cons.1 hc with rfl | hc
  · exact ⟨rfl, rfl⟩
  · obtain ⟨a, ha, rfl⟩ := List.mem_map.1 hc
    refine ⟨construct_object _ _, ?_⟩
    cases a <;> first | rfl | exact absurd ha h

theorem moveCtor_WellFormed {F M : Type} (dst : Nat) (e : Entity F M)
    (h : e.WellFormed = true) : (Entity.moveCtor dst e).1.WellFormed = true := by
  rw [WellFormed_iff] at h ⊢
  intro c hc
  simp only [Entity.moveCtor, List.mem_map] at hc
  obtain ⟨d, hd, rfl⟩ := hc
  exact ⟨rfl, (h d hd).2⟩

/-- The loop over the indices `k, k+1, ..., k+m-1` passes through one frame per index:
each is the outcome of the virtual call on the one before. -/
theorem tickLoop_chain {F M : Type} [LinearOrderedField F] (B : Backend F M) (dt : F)
    (m k : Nat) (s s1 : Frame F M)
    (h : Entity.tickLoop B dt (List.range' k m) s = Except.ok s1) :
    ∃ f : Nat → Frame F M, f k = s ∧ f (k + m) = s1 ∧
      ∀ i, k ≤ i → i < k + m →
        Component.tick B dt i { f i with calls := (f i).calls ++ [(i, dt)] } =
          Except.ok (f (i + 1)) := by
  induction m generalizing k s with
  | zero =>
    simp only [List.range'_zero, Entity.tickLoop, Except.ok.injEq] at h
    exact ⟨fun _ => s, rfl, h, fun i h1 h2 => by omega⟩
  | succ m ih =>
    rw [List.range'_succ] at h
    unfold Entity.tickLoop at h
    split at h
    · cases h
    · rename_i s2 hs2
      obtain ⟨g, hg0, hg1, hg⟩ := ih (k + 1) s2 h
      refine ⟨fun i => if i ≤ k then s else g i, by simp, ?_, ?_⟩
      · have : ¬ (k + (m + 1) ≤ k) := by omega
        simp only [this, if_false]
        rw [← hg1]
        congr 1
        omega
      · intro i h1 h2
        by_cases hik : i = k
        · subst hik
          have : ¬ (i + 1 ≤ i) := by omega
          simp only [le_refl, if_true, this, if_false, hg0]
          exact hs2
        · have h3 : ¬ (i ≤ k) := by omega
          have h4 : ¬ (i + 1 ≤ k) := by omega
          simp only [h3, h4, if_false]
          exact hg i (by omega) (by omega)


theorem mem_kinds_iff {F M : Type} (cs : List (Component F M)) (K : Kind) :
    K ∈ cs.map Component.kind ↔ ∃ c ∈ cs, c.kind = K := by
  simp [List.mem_map]

/-- A tick on a non-empty entity returns, and changes the entity at most in one
Transform. -/
theorem PhysicsComponent_tick_shape {F M : Type} [LinearOrderedField F] (B : Backend F M)
    (dt : F) (p : PhysicsComponent F) (obj : Entity F M) (hne : obj.components ≠ []) :
    ∃ p1 obj1, PhysicsComponent.tick B dt p obj = Except.ok (p1, obj1) ∧
      obj1.addr = obj.addr ∧
      (obj1.components = obj.components ∨
        ∃ j o t t1,
          obj.components[j]? = some { object := o, data := ComponentData.transform t } ∧
          obj1.components =
            obj.components.set j { object := o, data := ComponentData.transform t1 }) := by
  rcases hget : obj.GetComponent Kind.TransformComponent with f | r
  · rw [GetComponent_eq_GetComponentPtr obj _ (Or.inl hne)] at hget
    cases hget
  · cases r with
    | none =>
      refine ⟨p, obj, ?_, rfl, Or.inl rfl⟩
      unfold PhysicsComponent.tick
      rw [hget]
    | some j =>
      obtain ⟨o, t, ht⟩ := GetComponent_Transform_some obj j hget
      exact ⟨_, _, PhysicsComponent_tick_eq B dt p obj j o t hget ht, rfl,
        Or.inr ⟨j, o, t, _, ht, rfl⟩⟩

/-- With a Transform present and a model held, the render tick returns having made one
draw call more. -/
theorem RenderingComponent_tick_one_draw {F M : Type} (B : Backend F M) (dt : F)
    (r : RenderingComponent M) (obj : Entity F M) (draws : List M)
    (hT : ∃ c ∈ obj.components, c.kind = Kind.TransformComponent)
    (hr : r.modelPtr.isSome = true) :
    ∃ r1 draws1, RenderingComponent.tick B dt r obj draws = Except.ok (r1, draws1) ∧
      draws1.length = draws.length + 1 := by
  obtain ⟨j, hj⟩ := GetComponent_Transform_of_mem obj hT
  obtain ⟨o, t, ht⟩ := GetComponent_Transform_some obj j hj
  cases hm : r.modelPtr with
  | none => simp [hm] at hr
  | some m =>
    refine ⟨{ modelPtr := some { transform := m.transform } },
      draws ++ [B.RotateXYZ m.transform t.position.x t.position.y t.position.z], ?_, by simp⟩
    unfold RenderingComponent.tick
    rw [hj]
    simp only [ht, hm]

theorem Component_tick_draws {F M : Type} [LinearOrderedField F] (B : Backend F M) (dt : F)
    (i : Nat) (s : Frame F M) (hi : i < s.entity.components.length)
    (hwf : s.entity.WellFormed = true)
    (hT : Kind.TransformComponent ∈ s.entity.components.map Component.kind) :
    ∃ s1, Component.tick B dt i s = Except.ok s1 ∧
      s1.entity.WellFormed = true ∧
      s1.entity.components.map Component.kind = s.entity.components.map Component.kind ∧
      s1.draws.length =
        s.draws.length +
          (if (s.entity.components.map Component.kind)[i]? = some Kind.RenderingComponent
            then 1 else 0) := by
  obtain ⟨s1, h1, _, hwf1⟩ := Component_tick_ok B dt i s hi hwf
  refine ⟨s1, h1, hwf1, ?_⟩
  have hne : s.entity.components ≠ [] := by
    intro h
    rw [h] at hi
    exact absurd hi (Nat.not_lt_zero i)
  have hget : s.entity.components[i]? = some (s.entity.components[i]) := by
    simp [hi]
  have hmem : s.entity.components[i] ∈ s.entity.components := List.getElem?_mem hget
  have hmodel := ((WellFormed_iff s.entity).1 hwf _ hmem).2
  have hkind : (s.entity.components.map Component.kind)[i]? =
      some (s.entity.components[i]).kind := by
    rw [List.getElem?_map, hget]
    rfl
  rw [hkind]
  unfold Component.tick at h1
  rw [hget] at h1
  simp only [] at h1
  generalize s.entity.components[i] = c at hget hmem h1 hmodel
  obtain ⟨o, d⟩ := c
  cases d with
  | base => cases h1; exact ⟨rfl, by simp [Component.kind]⟩
  | transform t => cases h1; exact ⟨rfl, by simp [Component.kind]⟩
  | input n => cases h1; exact ⟨rfl, by simp [Component.kind]⟩
  | rendering r =>
    simp only at h1
    split at h1
    · obtain ⟨r1, draws1, h2, h3⟩ :=
        RenderingComponent_tick_one_draw B dt r s.entity s.draws
          ((mem_kinds_iff _ _).1 hT) (by simpa [Component.hasModel] using hmodel)
      rw [h2] at h1
      simp only [Except.ok.injEq] at h1
      subst h1
      refine ⟨map_kind_set _ _ _ { object := o, data := ComponentData.rendering r1 } hget rfl,
        ?_⟩
      simp [Component.kind, h3]
    · cases h1
  | physics p =>
    simp only at h1
    split at h1
    · obtain ⟨p1, obj1, h2, _, h5⟩ := PhysicsComponent_tick_shape B dt p s.entity hne
      rw [h2] at h1
      simp only [Except.ok.injEq] at h1
      subst h1
      refine ⟨?_, by simp [Component.kind]⟩
      rcases h5 with h5 | ⟨j, o1, t, t1, h5, h6⟩
      · simp only [h5]
        exact map_kind_set _ _ _ { object := o, data := ComponentData.physics p1 } hget rfl
      · simp only [h6]
        have hk1 := map_kind_set s.entity.components j _
          { object := o1, data := ComponentData.transform t1 } h5 rfl
        have hgeti : (s.entity.components.set j
            { object := o1, data := ComponentData.transform t1 })[i]? =
            some { object := o, data := ComponentData.physics p } := by
          rw [List.getElem?_set]
          by_cases hji : j = i
          · subst hji
            rw [hget] at h5
            cases h5
          · simp [hji, hget]
        rw [map_kind_set _ i _ { object := o, data := ComponentData.physics p1 } hgeti rfl, hk1]
    · cases h1

theorem tickLoop_draws {F M : Type} [LinearOrderedField F] (B : Backend F M) (dt : F)
    (is : List Nat) (s : Frame F M) (his : ∀ i ∈ is, i < s.entity.components.length)
    (hwf : s.entity.WellFormed = true)
    (hT : Kind.TransformComponent ∈ s.entity.components.map Component.kind) :
    ∃ s1, Entity.tickLoop B dt is s = Except.ok s1 ∧
      s1.draws.length =
        s.draws.length +
          (is.filter (fun i =>
            decide ((s.entity.components.map Component.kind)[i]? =
              some Kind.RenderingComponent))).length := by
  induction is generalizing s with
  | nil => exact ⟨s, rfl, by simp⟩
  | cons i is ih =>
    obtain ⟨s2, h1, h2, h3, h4⟩ :=
      Component_tick_draws B dt i { s with calls := s.calls ++ [(i, dt)] }
        (his i (List.mem_cons_self i is)) hwf hT
    have hlen : s2.entity.components.length = s.entity.components.length := by
      have := congrArg List.length h3
      simpa using this
    obtain ⟨s3, h5, h6⟩ :=
      ih s2 (fun k hk => by rw [hlen]; exact his k (List.mem_cons_of_mem i hk)) h2
        (by rw [h3]; exact hT)
    refine ⟨s3, ?_, ?_⟩
    · unfold Entity.tickLoop Entity.tickStep
      rw [h1]
      exact h5
    · rw [h6, h4, h3]
      simp only [List.filter_cons]
      split <;> rename_i hc
      · rw [if_pos (decide_eq_true hc), List.length_cons]
        omega
      · rw [if_neg (by simpa using hc)]
        omega


/-- C6 fails as stated.  `Entity()` followed by `AddComponent<RenderingComponent>()` (the
constructor inherited from `Component`, which leaves `modelPtr` null) and
`AddComponent<PhysicsComponent>(0.1, 0.1, 10)` has three components, all
back-referencing it.  `tick(dt)` on it does not invoke `tick(dt)` on each of them: the
call on `components[1]` dereferences the null `modelPtr`, and the loop never reaches
`components[2]`. -/
theorem Entity_tick_stops_at_null_modelPtr :
    (Entity.build 1 [Args.renderingNull, Args.physics (1 / 10) (1 / 10) 10] :
        Entity ℚ Unit).components.map Component.kind =
        [Kind.TransformComponent, Kind.RenderingComponent, Kind.PhysicsComponent] ∧
      (Entity.build 1 [Args.renderingNull, Args.physics (1 / 10) (1 / 10) 10] :
        Entity ℚ Unit).components.map Component.object = [1, 1, 1] ∧
      Entity.tickLoop exampleBackend (1 / 60) [0]
          { entity := Entity.build 1 [Args.renderingNull, Args.physics (1 / 10) (1 / 10) 10],
            calls := [], draws := [] } =
        Except.ok
          { entity := Entity.build 1 [Args.renderingNull, Args.physics (1 / 10) (1 / 10) 10],
            calls := [(0, 1 / 60)], draws := [] } ∧
      Entity.tickLoop exampleBackend (1 / 60) [0, 1]
          { entity := Entity.build 1 [Args.renderingNull, Args.physics (1 / 10) (1 / 10) 10],
            calls := [], draws := [] } =
        Except.error Fault.nullDeref ∧
      Entity.tick exampleBackend (1 / 60)
          { entity := Entity.build 1 [Args.renderingNull, Args.physics (1 / 10) (1 / 10) 10],
            calls := [], draws := [] } =
        Except.error Fault.nullDeref ∧
      ¬ ∃ s1,
          Entity.tick exampleBackend (1 / 60)
              { entity :=
                  Entity.build 1 [Args.renderingNull, Args.physics (1 / 10) (1 / 10) 10],
                calls := [], draws := [] } =
            Except.ok s1 ∧
          s1.calls = [(0, 1 / 60), (1, 1 / 60), (2, 1 / 60)] := by
  refine ⟨rfl, rfl, rfl, rfl, rfl, ?_⟩
  rintro ⟨s1, h, _⟩
  have h1 : Entity.tick exampleBackend (1 / 60)
      { entity := Entity.build 1 [Args.renderingNull, Args.physics (1 / 10) (1 / 10) 10],
        calls := [], draws := [] } = Except.error Fault.nullDeref := rfl
  rw [h1] at h
  cases h

/-- C6 as amended.  On an entity whose components all back-reference it and whose
`RenderingComponent`s all hold a model, `Entity::tick(dt)` returns having invoked
`tick(dt)` on each component exactly once, in insertion order, with the same `dt`, none
skipped and no early exit.  The calls made are `components[0]->tick(dt)`, ...,
`components[n-1]->tick(dt)`; the frame after the loop is the last of the frames
`f 0, f 1, ..., f n` in which `f (i+1)` is the outcome of the call on `components[i]` in
`f i`; when the entity has a Transform, the number of draw calls made is the number of
positions that hold a `RenderingComponent`; the vector keeps its length, and the entity
still satisfies the two conditions (so the next frame can tick it again).  The two
conditions hold for `Entity()` followed by `AddComponent` calls that give every
`RenderingComponent` a model, and for the destination of a move of such an entity. -/
theorem Entity_tick_calls_each_once {F M : Type} [LinearOrderedField F] (B : Backend F M)
    (dt : F) (s : Frame F M) (hwf : s.entity.WellFormed = true) :
    ∃ s1, Entity.tick B dt s = Except.ok s1 ∧
      s1.calls =
        s.calls ++ (List.range s.entity.components.length).map (fun i => (i, dt)) ∧
      (∃ f : Nat → Frame F M, f 0 = s ∧ f s.entity.components.length = s1 ∧
        ∀ i, i < s.entity.components.length →
          Component.tick B dt i { f i with calls := (f i).calls ++ [(i, dt)] } =
            Except.ok (f (i + 1))) ∧
      (Kind.TransformComponent ∈ s.entity.components.map Component.kind →
        s1.draws.length =
          s.draws.length +
            ((List.range s.entity.components.length).filter (fun i =>
              decide ((s.entity.components.map Component.kind)[i]? =
                some Kind.RenderingComponent))).length) ∧
      s1.entity.components.length = s.entity.components.length ∧
      s1.entity.WellFormed = true ∧
      ∀ (this dst : Nat) (as : List (Args F M)), Args.renderingNull ∉ as →
        (Entity.build this as).WellFormed = true ∧
          (Entity.moveCtor dst (Entity.build this as)).1.WellFormed = true := by
  obtain ⟨s1, h1, h2, h3⟩ :=
    tickLoop_ok B dt (List.range s.entity.components.length) s
      (fun i hi => List.mem_range.1 hi) hwf
  refine ⟨s1, h1, tickLoop_calls B dt _ s s1 h1, ?_, ?_, h2, h3, ?_⟩
  · have h4 := h1
    rw [List.range_eq_range'] at h4
    obtain ⟨f, hf0, hf1, hf⟩ := tickLoop_chain B dt _ 0 s s1 h4
    exact ⟨f, hf0, by simpa using hf1, fun i hi => hf i (Nat.zero_le i) (by omega)⟩
  · intro hT
    obtain ⟨s2, h5, h6⟩ :=
      tickLoop_draws B dt (List.range s.entity.components.length) s
        (fun i hi => List.mem_range.1 hi) hwf hT
    rw [h1] at h5
    simp only [Except.ok.injEq] at h5
    subst h5
    exact h6
  · intro this dst as has
    exact ⟨build_WellFormed this as has,
      moveCtor_WellFormed dst _ (build_WellFormed this as has)⟩

/-- Witness of the amended C6 on `plane1` with no call and no draw made before. -/
theorem Entity_tick_calls_each_once_witness :
    (plane1 1 { transform := () } : Entity ℚ Unit).WellFormed = true ∧
      ∃ s1, Entity.tick exampleBackend (1 / 60)
          { entity := plane1 1 { transform := () }, calls := [], draws := [] } = Except.ok s1 ∧
        s1.calls =
          [] ++ (List.range (plane1 1 { transform := () } : Entity ℚ Unit).components.length).map
            (fun i => (i, (1 / 60 : ℚ))) ∧
        (∃ f : Nat → Frame ℚ Unit,
          f 0 = { entity := plane1 1 { transform := () }, calls := [], draws := [] } ∧
          f (plane1 1 { transform := () } : Entity ℚ Unit).components.length = s1 ∧
          ∀ i, i < (plane1 1 { transform := () } : Entity ℚ Unit).components.length →
            Component.tick exampleBackend (1 / 60) i
                { f i with calls := (f i).calls ++ [(i, 1 / 60)] } =
              Except.ok (f (i + 1))) ∧
        (Kind.TransformComponent ∈
            (plane1 1 { transform := () } : Entity ℚ Unit).components.map Component.kind →
          s1.draws.length =
            ([] : List Unit).length +
              ((List.range
                  (plane1 1 { transform := () } : Entity ℚ Unit).components.length).filter
                (fun i =>
                  decide
                    (((plane1 1 { transform := () } : Entity ℚ Unit).components.map
                        Component.kind)[i]? =
                      some Kind.RenderingComponent))).length) ∧
        s1.entity.components.length =
          (plane1 1 { transform := () } : Entity ℚ Unit).components.length ∧
        s1.entity.WellFormed = true ∧
        ∀ (this dst : Nat) (as : List (Args ℚ Unit)), Args.renderingNull ∉ as →
          (Entity.build this as).WellFormed = true ∧
            (Entity.moveCtor dst (Entity.build this as)).1.WellFormed = true :=
  ⟨rfl,
    Entity_tick_calls_each_once exampleBackend (1 / 60)
      { entity := plane1 1 { transform := () }, calls := [], draws := [] } rfl⟩

end As6
